import Mathlib

/-!
# BackgroundSlicingProcess: the background-processing coordinator

A shallow embedding of `src/slic3r/GUI/BackgroundSlicingProcess.cpp`.

The coordinator is driven by two threads. Every function of the control thread
holds `m_mutex` from its first line to its return, except inside
`m_condition.wait`, so a control-thread call is one atomic transition in which
each wait lets the worker run until the waited-for predicate holds. The worker
(`thread_proc`) is cut into the sections it executes between two operations on
`m_mutex`; `thread_proc_step` performs one such section.

The collaborators that are not part of the translated file (the job, the step
tracker, the helpers declared in the header) are modelled from the
specification or taken as parameters; each such definition says so.
`assert` statements are compiled out (release build) and are not part of the
transitions.
-/

namespace Slic3r

/-! ## Data model -/

/-- The values of `m_state` used by the coordinator. -/
inductive State where
  | STATE_INITIAL
  | STATE_IDLE
  | STATE_STARTED
  | STATE_RUNNING
  | STATE_FINISHED
  | STATE_CANCELED
  | STATE_EXIT
  | STATE_EXITED
  deriving DecidableEq

/-- Modelled from the spec: the result of the job's `cancel_status()`, which
"distinguishes a user-initiated cancellation from an internal one"; the source
names `Print::CANCELED_INTERNAL`. -/
inductive CancelStatus where
  | NOT_CANCELED
  | CANCELED_BY_USER
  | CANCELED_INTERNAL
  deriving DecidableEq

/-- The job kinds dispatched on in `thread_proc`; `ptOther` stands for any value
that reaches the `default:` branch of the switch. -/
inductive PrinterTechnology where
  | ptFFF
  | ptSLA
  | ptOther
  deriving DecidableEq

/-- The steps tracked by `m_step_state`; the source names one. -/
inductive BackgroundSlicingProcessStep where
  | bspsGCodeFinalize
  deriving DecidableEq

/-- Modelled from the spec: the flag the step tracker keeps per step,
"{Done, Started, Pending}". -/
inductive StepState where
  | Pending
  | Started
  | Done
  deriving DecidableEq

/-- The callbacks that the coordinator installs with `set_cancel_callback`:
the lambda calling `stop_internal` (line 256) and the empty lambda
(lines 277, 281, 321); `unset` is the job's callback before any installation. -/
inductive CancelCallback where
  | unset
  | stop_internal
  | noop
  deriving DecidableEq

/-- The calls on the job that change it, in the order they are made. -/
inductive JobCall where
  | cancel
  | cancel_internal
  | restart
  | clear
  | set_cancel_callback (cb : CancelCallback)
  | state_mutex_lock
  | state_mutex_unlock
  | set_status (percent : Nat) (message : String)
  deriving DecidableEq

/-- The events queued on the plater with `wxQueueEvent`. -/
inductive Event where
  | slicing_completed
  | finished (str : String) (int : Int)
  deriving DecidableEq

/-- What a call can raise: the three `catch` clauses of `thread_proc`. -/
inductive Thrown where
  | CanceledException
  | std_exception (what : String)
  | unknown
  deriving DecidableEq

/-- Modelled from the spec: the CancelableJob (`m_print`), an external
collaborator. It has an `empty()` flag, a technology, a cancellation status, a
cancel-callback hook and a state lock that one party locks and unlocks
explicitly; `m_calls` records the mutating calls made on it. -/
structure PrintBase where
  m_empty : Bool
  m_technology : PrinterTechnology
  m_cancel_status : CancelStatus
  m_cancel_callback : CancelCallback
  m_state_mutex_locked : Bool
  m_calls : List JobCall
  deriving DecidableEq

/-- Where the worker thread stands in `thread_proc`. -/
inductive WorkerPc where
  /-- The thread `m_thread` has not been created. -/
  | not_started
  /-- Created, before line 155. -/
  | entry
  /-- Line 161, `m_mutex` released. -/
  | loop_head
  /-- Line 164, inside `m_condition.wait`. -/
  | waiting
  /-- Lines 171 to 186, `m_mutex` released. -/
  | processing
  /-- Line 187 with the captured `error`, about to lock `m_mutex`. -/
  | processed (error : String)
  /-- After line 204. -/
  | returned
  /-- After `m_thread.join()`. -/
  | joined
  deriving DecidableEq

/-- The coordinator together with its worker thread and the plater's event
queue. -/
structure BackgroundSlicingProcess where
  m_state : State
  m_print : PrintBase
  m_export_path : String
  m_step_state : BackgroundSlicingProcessStep → StepState
  m_thread : WorkerPc
  m_events : List Event

/-- How a call ends: it returns a value, it throws, or it waits forever on a
condition that the worker never establishes. -/
inductive Outcome (α : Type) where
  | returned (value : α) (s : BackgroundSlicingProcess)
  | thrown (ex : Thrown) (s : BackgroundSlicingProcess)
  | blocked

/-- Sequencing of two calls; an exception or a deadlock of the first ends the
sequence. -/
def Outcome.andThen {α β : Type} (r : Outcome α)
    (k : α → BackgroundSlicingProcess → Outcome β) : Outcome β :=
  match r with
  | .returned v s => k v s
  | .thrown ex s => .thrown ex s
  | .blocked => .blocked

/-- The behaviour of the external calls made during one run of the job: what
each raises (`none`: it returns normally) and what it returns. -/
structure Oracle where
  process : Option Thrown
  export_gcode : Option Thrown
  finalize_output_path : String → String
  copy_file : Int
  run_post_process_scripts : Option Thrown
  export_raster : Option Thrown

/-! ## The job (external collaborator) -/

/-- Modelled from the spec: `empty()` of the job. -/
def PrintBase.empty (p : PrintBase) : Bool := p.m_empty

/-- Modelled from the spec: `technology()` of the job. -/
def PrintBase.technology (p : PrintBase) : PrinterTechnology := p.m_technology

/-- Modelled from the spec: `cancel_status()` of the job. -/
def PrintBase.cancel_status (p : PrintBase) : CancelStatus := p.m_cancel_status

/-- Modelled from the spec: `canceled()` of the job, "true once `cancel()` or
`cancel_internal()` has been observed". -/
def PrintBase.canceled (p : PrintBase) : Bool :=
  p.m_cancel_status != CancelStatus.NOT_CANCELED

/-- Modelled from the spec: `cancel()` of the job, the user-initiated
cancellation. -/
def PrintBase.cancel (p : PrintBase) : PrintBase :=
  { p with m_cancel_status := CancelStatus.CANCELED_BY_USER,
           m_calls := p.m_calls ++ [JobCall.cancel] }

/-- Modelled from the spec: `cancel_internal()` of the job, the cancellation
"issued by configuration changes". -/
def PrintBase.cancel_internal (p : PrintBase) : PrintBase :=
  { p with m_cancel_status := CancelStatus.CANCELED_INTERNAL,
           m_calls := p.m_calls ++ [JobCall.cancel_internal] }

/-- Modelled from the spec: `restart()` of the job, which resets "its transient
progress": the cancellation is no longer pending. -/
def PrintBase.restart (p : PrintBase) : PrintBase :=
  { p with m_cancel_status := CancelStatus.NOT_CANCELED,
           m_calls := p.m_calls ++ [JobCall.restart] }

/-- Modelled from the spec: `clear()` of the job ("fully clear job progress");
the spec gives it no effect on the data of the coordinator, the call is
recorded. -/
def PrintBase.clear (p : PrintBase) : PrintBase :=
  { p with m_calls := p.m_calls ++ [JobCall.clear] }

/-- Modelled from the spec: `set_cancel_callback(fn)` of the job. -/
def PrintBase.set_cancel_callback (p : PrintBase) (cb : CancelCallback) : PrintBase :=
  { p with m_cancel_callback := cb,
           m_calls := p.m_calls ++ [JobCall.set_cancel_callback cb] }

/-- Modelled from the spec: `state_mutex().lock()`. -/
def PrintBase.state_mutex_lock (p : PrintBase) : PrintBase :=
  { p with m_state_mutex_locked := true,
           m_calls := p.m_calls ++ [JobCall.state_mutex_lock] }

/-- Modelled from the spec: `state_mutex().unlock()`. -/
def PrintBase.state_mutex_unlock (p : PrintBase) : PrintBase :=
  { p with m_state_mutex_locked := false,
           m_calls := p.m_calls ++ [JobCall.state_mutex_unlock] }

/-- Modelled from the spec: `set_status(percent, message)` of the job. -/
def PrintBase.set_status (p : PrintBase) (percent : Nat) (message : String) : PrintBase :=
  { p with m_calls := p.m_calls ++ [JobCall.set_status percent message] }

/-! ## Small accessors of the coordinator -/

/-- The call `wxQueueEvent(plater, event)`. -/
def wxQueueEvent (e : Event) (s : BackgroundSlicingProcess) : BackgroundSlicingProcess :=
  { s with m_events := s.m_events ++ [e] }

/-- Modelled from the spec: `idle()`, declared in the header; the state is
Idle. -/
def idle (s : BackgroundSlicingProcess) : Bool := s.m_state == State.STATE_IDLE

/-- The helper `throw_if_canceled()` handed to the step tracker.
Modelled from the spec: "if canceled, fails by raising a canceled signal". -/
def throw_if_canceled (s : BackgroundSlicingProcess) : Outcome Unit :=
  if s.m_print.canceled then .thrown Thrown.CanceledException s else .returned () s

/-- Overwrites the flag of one step. -/
def set_flag (f : BackgroundSlicingProcessStep → StepState)
    (step : BackgroundSlicingProcessStep) (v : StepState) :
    BackgroundSlicingProcessStep → StepState :=
  fun x => if x = step then v else f x

/-- All tracked steps. -/
def all_steps : List BackgroundSlicingProcessStep :=
  [BackgroundSlicingProcessStep.bspsGCodeFinalize]

/-! ## The step tracker, as used through the coordinator -/

/-- The function `set_step_started` (line 386): `m_step_state.set_started` with
the cancellation check. Modelled from the spec: the tracker's `set_started`
"calls onCancelCheck first", and "if step not already Done, mark Started and
return true". -/
def set_step_started (step : BackgroundSlicingProcessStep)
    (s : BackgroundSlicingProcess) : Outcome Bool :=
  (throw_if_canceled s).andThen fun _ s =>
    if s.m_step_state step = StepState.Done then .returned false s
    else .returned true { s with m_step_state := set_flag s.m_step_state step StepState.Started }

/-- The function `set_step_done` (line 391): `m_step_state.set_done` with the
cancellation check that the source hands it, run first as in `set_started`.
Modelled from the spec: the tracker's `set_done` "transitions Started to
Done". -/
def set_step_done (step : BackgroundSlicingProcessStep)
    (s : BackgroundSlicingProcess) : Outcome Unit :=
  (throw_if_canceled s).andThen fun _ s =>
    .returned () { s with m_step_state := set_flag s.m_step_state step StepState.Done }

/-- The function `is_step_done` (line 396). Modelled from the spec: the
tracker's `is_done` is a "read-only query". -/
def is_step_done (step : BackgroundSlicingProcessStep)
    (s : BackgroundSlicingProcess) : Bool :=
  s.m_step_state step == StepState.Done

/-! ## The worker thread -/

/-- The call `m_print->set_status(percent, message)`. -/
def set_status (percent : Nat) (message : String)
    (s : BackgroundSlicingProcess) : BackgroundSlicingProcess :=
  { s with m_print := s.m_print.set_status percent message }

/-- The function `process_fff` (lines 75 to 96). -/
def process_fff (o : Oracle) (s : BackgroundSlicingProcess) : Outcome Unit :=
  match o.process with
  | some ex => Outcome.thrown ex s
  | none =>
    match o.export_gcode with
    | some ex => Outcome.thrown ex (wxQueueEvent Event.slicing_completed s)
    | none =>
      (set_step_started BackgroundSlicingProcessStep.bspsGCodeFinalize
        (wxQueueEvent Event.slicing_completed s)).andThen fun started s =>
        if started then
          (if s.m_export_path ≠ "" then
            if o.copy_file ≠ 0 then
              Outcome.thrown (Thrown.std_exception
                "Copying of the temporary G-code to the output G-code failed") s
            else
              match o.run_post_process_scripts with
              | some ex => Outcome.thrown ex (set_status 95 "Running post-processing scripts" s)
              | none => Outcome.returned ()
                  (set_status 100
                    ("G-code file exported to " ++ o.finalize_output_path s.m_export_path)
                    (set_status 95 "Running post-processing scripts" s))
          else
            Outcome.returned () (set_status 100 "Slicing complete" s)).andThen fun _ s =>
              set_step_done BackgroundSlicingProcessStep.bspsGCodeFinalize s
        else Outcome.returned () s

/-- The function `process_sla` (lines 138 to 149). -/
def process_sla (o : Oracle) (s : BackgroundSlicingProcess) : Outcome Unit :=
  match o.process with
  | some ex => Outcome.thrown ex s
  | none =>
    (set_step_started BackgroundSlicingProcessStep.bspsGCodeFinalize s).andThen fun started s =>
      if started then
        (if s.m_export_path ≠ "" then
          match o.export_raster with
          | some ex => Outcome.thrown ex s
          | none => Outcome.returned ()
              (set_status 100 ("Zip file exported to " ++ s.m_export_path) s)
        else
          Outcome.returned () s).andThen fun _ s =>
            set_step_done BackgroundSlicingProcessStep.bspsGCodeFinalize s
      else Outcome.returned () s

/-- The `switch` of `thread_proc` (lines 174 to 178): the processing selected by
the technology of the job. -/
def process_by_technology (o : Oracle) (s : BackgroundSlicingProcess) : Outcome Unit :=
  match s.m_print.technology with
  | PrinterTechnology.ptFFF => process_fff o s
  | PrinterTechnology.ptSLA => process_sla o s
  | PrinterTechnology.ptOther =>
    match o.process with
    | some ex => Outcome.thrown ex s
    | none => Outcome.returned () s

/-- The `catch` clauses of `thread_proc` (lines 179 to 186): the `error` text
left behind by the processing. -/
def caught_error (r : Outcome Unit) : Option (String × BackgroundSlicingProcess) :=
  match r with
  | .returned _ s1 => some ("", s1)
  | .thrown Thrown.CanceledException s1 => some ("", s1)
  | .thrown (Thrown.std_exception what) s1 => some (what, s1)
  | .thrown Thrown.unknown s1 => some ("Unknown C++ exception.", s1)
  | .blocked => none

/-- The `try` block of `thread_proc` (lines 171 to 186). -/
def try_process (o : Oracle) (s : BackgroundSlicingProcess) :
    Option (String × BackgroundSlicingProcess) :=
  caught_error (process_by_technology o s)

/-- The numeric code of the finished event (line 194). -/
def finished_code (canceled : Bool) (error : String) : Int :=
  if canceled then -1 else (if error = "" then 1 else 0)

/-- Lines 187 to 198 of `thread_proc`: with `m_mutex` held again, publish the
result of the run. -/
def publish_result (error : String) (s : BackgroundSlicingProcess) : BackgroundSlicingProcess :=
  let s := { s with m_state :=
    if s.m_print.canceled then State.STATE_CANCELED else State.STATE_FINISHED }
  let s := if s.m_print.cancel_status ≠ CancelStatus.CANCELED_INTERNAL then
      wxQueueEvent (Event.finished error (finished_code s.m_print.canceled error)) s
    else s
  { s with m_print := s.m_print.restart, m_thread := WorkerPc.loop_head }

/-- One section of `thread_proc` (lines 151 to 206), from where the worker
stands to its next operation on `m_mutex`; `none` when the worker cannot move:
it is not running, it waits on `m_condition` for Started or Exit, or it needs
the state lock of the job while the control thread holds it. -/
def thread_proc_step (o : Oracle) (s : BackgroundSlicingProcess) :
    Option BackgroundSlicingProcess :=
  match s.m_thread with
  | .not_started => none
  | .entry => some { s with m_state := State.STATE_IDLE, m_thread := WorkerPc.loop_head }
  | .loop_head => some { s with m_thread := WorkerPc.waiting }
  | .waiting =>
    if s.m_state = State.STATE_EXIT then
      some { s with m_state := State.STATE_EXITED, m_thread := WorkerPc.returned }
    else if s.m_state = State.STATE_STARTED then
      some { s with m_state := State.STATE_RUNNING, m_thread := WorkerPc.processing }
    else none
  | .processing =>
    if s.m_print.m_state_mutex_locked then none
    else
      match try_process o s with
      | some (error, s1) => some { s1 with m_thread := WorkerPc.processed error }
      | none => none
  | .processed error => some (publish_result error s)
  | .returned => none
  | .joined => none

/-- The worker runs until `pred` holds; `none` when the worker stops moving
first (a thread waiting for `pred` then waits forever) or after `fuel`
sections. -/
def run_worker_until (pred : BackgroundSlicingProcess → Bool) (o : Oracle) :
    Nat → BackgroundSlicingProcess → Option BackgroundSlicingProcess
  | 0, s => if pred s then some s else none
  | fuel + 1, s =>
    if pred s then some s
    else
      match thread_proc_step o s with
      | none => none
      | some s1 => run_worker_until pred o fuel s1

/-- The worker cannot execute more sections than this without a new `start()`
(see `run_worker_until_bound`), so it is the fuel of every wait. -/
def wait_bound : Nat := 6

/-- The call `m_condition.wait(lck, pred)` of the control thread, `pred` being a
predicate on `m_state`. -/
def cond_wait (pred : State → Bool) (o : Oracle) (s : BackgroundSlicingProcess) :
    Option BackgroundSlicingProcess :=
  run_worker_until (fun s => pred s.m_state) o wait_bound s

/-- The call `m_thread.join()`: wait until `thread_proc` has returned. -/
def thread_join (o : Oracle) (s : BackgroundSlicingProcess) :
    Option BackgroundSlicingProcess :=
  match run_worker_until (fun s => s.m_thread == WorkerPc.returned) o wait_bound s with
  | some s1 => some { s1 with m_thread := WorkerPc.joined }
  | none => none

/-! ## The control thread -/

/-- The function `join_background_thread` (lines 217 to 233). -/
def join_background_thread (o : Oracle) (s : BackgroundSlicingProcess) : Outcome Unit :=
  if s.m_state = State.STATE_INITIAL then .returned () s
  else
    match thread_join o { s with m_state := State.STATE_EXIT } with
    | some s1 => .returned () s1
    | none => .blocked

/-- Lines 242 to 248 of `start`: in the state Initial the worker thread is created
and the control thread waits until it is Idle. -/
def start_thread (o : Oracle) (s : BackgroundSlicingProcess) :
    Option BackgroundSlicingProcess :=
  if s.m_state = State.STATE_INITIAL then
    cond_wait (fun st => st == State.STATE_IDLE) o { s with m_thread := WorkerPc.entry }
  else some s

/-- The function `start` (lines 235 to 260). The helper `running()` is declared
in the header, which is not part of the translated file: it is the parameter
`running`, a predicate on `m_state`. -/
def start (running : State → Bool) (o : Oracle) (s : BackgroundSlicingProcess) :
    Outcome Bool :=
  if s.m_print.empty then .returned false s
  else
    match start_thread o s with
    | none => .blocked
    | some s1 =>
      if running s1.m_state then .returned false s1
      else if ! idle s1 then
        .thrown (Thrown.std_exception
          "Cannot start a background task, the worker thread is not idle.") s1
      else
        .returned true
          { s1 with m_state := State.STATE_STARTED,
                    m_print := s1.m_print.set_cancel_callback CancelCallback.stop_internal }

/-- The function `stop` (lines 262 to 285). -/
def stop (o : Oracle) (s : BackgroundSlicingProcess) : Outcome Bool :=
  if s.m_state = State.STATE_INITIAL then .returned false s
  else if s.m_state = State.STATE_STARTED ∨ s.m_state = State.STATE_RUNNING then
    match cond_wait (fun st => st == State.STATE_CANCELED) o
        { s with m_print := s.m_print.cancel } with
    | none => .blocked
    | some s1 =>
      .returned true
        { s1 with m_state := State.STATE_IDLE,
                  m_print := s1.m_print.set_cancel_callback CancelCallback.noop }
  else if s.m_state = State.STATE_FINISHED ∨ s.m_state = State.STATE_CANCELED then
    .returned true
      { s with m_state := State.STATE_IDLE,
               m_print := s.m_print.set_cancel_callback CancelCallback.noop }
  else .returned true s

/-- The function `stop_internal` (lines 299 to 322). -/
def stop_internal (o : Oracle) (s : BackgroundSlicingProcess) : Outcome Unit :=
  if s.m_state = State.STATE_IDLE then .returned () s
  else if s.m_state = State.STATE_STARTED ∨ s.m_state = State.STATE_RUNNING then
    match cond_wait (fun st => st == State.STATE_CANCELED) o
        { s with m_print := s.m_print.cancel_internal.state_mutex_unlock } with
    | none => .blocked
    | some s1 =>
      .returned ()
        { s1 with m_state := State.STATE_IDLE,
                  m_print := s1.m_print.state_mutex_lock.set_cancel_callback CancelCallback.noop }
  else
    .returned ()
      { s with m_state := State.STATE_IDLE,
               m_print := s.m_print.set_cancel_callback CancelCallback.noop }

/-- The function `invalidate_step` (lines 401 to 405): `m_step_state.invalidate`
with `stop_internal` as the callback. Modelled from the spec: the tracker's
`invalidate`, "if step is Started, invoke onInvalidate before clearing to
Pending; if step is Done, simply clear to Pending; returns whether a change
occurred". -/
def invalidate_step (o : Oracle) (step : BackgroundSlicingProcessStep)
    (s : BackgroundSlicingProcess) : Outcome Bool :=
  match s.m_step_state step with
  | .Started =>
    (stop_internal o s).andThen fun _ s1 =>
      .returned true { s1 with m_step_state := set_flag s1.m_step_state step StepState.Pending }
  | .Done =>
    .returned true { s with m_step_state := set_flag s.m_step_state step StepState.Pending }
  | .Pending => .returned false s

/-- The function `invalidate_all_steps` (lines 407 to 410):
`m_step_state.invalidate_all` with `stop_internal` as the callback. Modelled
from the spec: the tracker's `invalidate_all`, "invalidate every tracked
step"; the result tells whether a flag changed. -/
def invalidate_all_steps (o : Oracle) (s : BackgroundSlicingProcess) : Outcome Bool :=
  all_steps.foldl
    (fun r step => r.andThen fun changed s1 =>
      (invalidate_step o step s1).andThen fun c s2 => .returned (changed || c) s2)
    (.returned false s)

/-- The function `schedule_export` (lines 347 to 357). -/
def schedule_export (o : Oracle) (path : String) (s : BackgroundSlicingProcess) :
    Outcome Unit :=
  if s.m_export_path ≠ "" then .returned () s
  else
    match invalidate_step o BackgroundSlicingProcessStep.bspsGCodeFinalize
        { s with m_print := s.m_print.state_mutex_lock } with
    | .returned _ s1 =>
      .returned () { s1 with m_export_path := path, m_print := s1.m_print.state_mutex_unlock }
    | .thrown ex s1 => .thrown ex { s1 with m_print := s1.m_print.state_mutex_unlock }
    | .blocked => .blocked

/-- The function `reset_export` (lines 375 to 384), `running` being the helper
`running()` of the header. -/
def reset_export (running : State → Bool) (o : Oracle) (s : BackgroundSlicingProcess) :
    Outcome Unit :=
  if ! running s.m_state then
    match invalidate_step o BackgroundSlicingProcessStep.bspsGCodeFinalize
        { s with m_export_path := "", m_print := s.m_print.state_mutex_lock } with
    | .returned _ s1 => .returned () { s1 with m_print := s1.m_print.state_mutex_unlock }
    | .thrown ex s1 => .thrown ex { s1 with m_print := s1.m_print.state_mutex_unlock }
    | .blocked => .blocked
  else .returned () s

/-- The function `reset` (lines 287 to 294). -/
def reset (running : State → Bool) (o : Oracle) (s : BackgroundSlicingProcess) :
    Outcome Bool :=
  (stop o s).andThen fun stopped s1 =>
    (reset_export running o s1).andThen fun _ s2 =>
      (invalidate_all_steps o { s2 with m_print := s2.m_print.clear }).andThen fun _ s3 =>
        .returned stopped s3

/-! ## Construction, consistency and call sequences -/

/-- A job on which nothing has been called yet. -/
def fresh_print (empty : Bool) (technology : PrinterTechnology) : PrintBase :=
  { m_empty := empty, m_technology := technology,
    m_cancel_status := CancelStatus.NOT_CANCELED,
    m_cancel_callback := CancelCallback.unset,
    m_state_mutex_locked := false, m_calls := [] }

/-- The coordinator after its constructor and the selection of the job `p`:
the state is Initial, no thread, no export target, no step started. -/
def constructed (p : PrintBase) : BackgroundSlicingProcess :=
  { m_state := State.STATE_INITIAL, m_print := p, m_export_path := "",
    m_step_state := fun _ => StepState.Pending,
    m_thread := WorkerPc.not_started, m_events := [] }

/-- The positions of the worker that go with each value of `m_state` between
two calls of the control thread. -/
def consistent (s : BackgroundSlicingProcess) : Bool :=
  match s.m_state, s.m_thread with
  | .STATE_INITIAL, .not_started => true
  | .STATE_IDLE, .loop_head => true
  | .STATE_IDLE, .waiting => true
  | .STATE_STARTED, .loop_head => true
  | .STATE_STARTED, .waiting => true
  | .STATE_RUNNING, .processing => true
  | .STATE_RUNNING, .processed _ => true
  | .STATE_FINISHED, .loop_head => true
  | .STATE_FINISHED, .waiting => true
  | .STATE_CANCELED, .loop_head => true
  | .STATE_CANCELED, .waiting => true
  | .STATE_EXIT, .loop_head => true
  | .STATE_EXIT, .waiting => true
  | .STATE_EXITED, .returned => true
  | .STATE_EXITED, .joined => true
  | _, _ => false

/-- One event of a history of the coordinator: a call of `start()` or `stop()`
by the control thread, or one section executed by the worker; the oracle tells
how the job behaves if it is run meanwhile. -/
inductive Action where
  | start (o : Oracle)
  | stop (o : Oracle)
  | worker (o : Oracle)

/-- The state after one action; `none` when the call never returns. A worker
that cannot move leaves the state as it is. -/
def Action.perform (running : State → Bool) (a : Action)
    (s : BackgroundSlicingProcess) : Option BackgroundSlicingProcess :=
  match a with
  | .start o =>
    match Slic3r.start running o s with
    | .returned _ s1 => some s1
    | .thrown _ s1 => some s1
    | .blocked => none
  | .stop o =>
    match Slic3r.stop o s with
    | .returned _ s1 => some s1
    | .thrown _ s1 => some s1
    | .blocked => none
  | .worker o =>
    match thread_proc_step o s with
    | some s1 => some s1
    | none => some s

/-- The state after a sequence of actions. -/
def perform_all (running : State → Bool) :
    List Action → BackgroundSlicingProcess → Option BackgroundSlicingProcess
  | [], s => some s
  | a :: rest, s =>
    match a.perform running s with
    | some s1 => perform_all running rest s1
    | none => none

/-- An oracle of a run in which no external call fails. -/
def oracle_ok : Oracle :=
  { process := none, export_gcode := none, finalize_output_path := fun p => p,
    copy_file := 0, run_post_process_scripts := none, export_raster := none }

/-- One reading of the helper `running()`: a run is active, the state is Started
or Running. -/
def running_active (st : State) : Bool :=
  st == State.STATE_STARTED || st == State.STATE_RUNNING

/-- Another reading of the helper `running()`: the worker has a run in hand or
behind it, the state is Started, Running, Finished or Canceled. -/
def running_until_stopped (st : State) : Bool :=
  st == State.STATE_STARTED || st == State.STATE_RUNNING ||
    st == State.STATE_FINISHED || st == State.STATE_CANCELED

/-! ## Auxiliary notions for the proofs -/


/-- A bound on the number of sections the worker can still execute without a
new call of the control thread. -/
def worker_rank (s : BackgroundSlicingProcess) : Nat :=
  match s.m_thread, s.m_state with
  | .entry, _ => 3
  | .loop_head, .STATE_STARTED => 5
  | .loop_head, .STATE_EXIT => 2
  | .loop_head, _ => 1
  | .waiting, .STATE_STARTED => 4
  | .waiting, .STATE_EXIT => 1
  | .waiting, _ => 0
  | .processing, _ => 3
  | .processed _, _ => 2
  | _, _ => 0

/-- The calls `set_status`, made by the processing. -/
def is_set_status : JobCall → Bool
  | .set_status _ _ => true
  | _ => false

/-- What the processing of a run leaves alone: the state, the export target and
the job apart from status calls; the only events it queues are
`slicing_completed`. -/
def Frame (s s1 : BackgroundSlicingProcess) : Prop :=
  s1.m_state = s.m_state ∧ s1.m_export_path = s.m_export_path ∧
  s1.m_print.m_empty = s.m_print.m_empty ∧
  s1.m_print.m_technology = s.m_print.m_technology ∧
  s1.m_print.m_cancel_status = s.m_print.m_cancel_status ∧
  s1.m_print.m_cancel_callback = s.m_print.m_cancel_callback ∧
  s1.m_print.m_state_mutex_locked = s.m_print.m_state_mutex_locked ∧
  (∃ extra, s1.m_print.m_calls = s.m_print.m_calls ++ extra ∧
    ∀ c ∈ extra, is_set_status c = true) ∧
  ∃ evs, s1.m_events = s.m_events ++ evs ∧ ∀ e ∈ evs, e = Event.slicing_completed

/-- A call that returns or throws, and leaves alone what `Frame` says. -/
def Outcome.Framed {α : Type} (s : BackgroundSlicingProcess) : Outcome α → Prop
  | .returned _ s1 => Frame s s1
  | .thrown _ s1 => Frame s s1
  | .blocked => False


/-- The invariant of the histories of `start()`, `stop()` and worker sections:
the worker stands where the state says, the control thread does not hold the
state lock of the job between two calls, and the thread was not told to exit. -/
def history_invariant (s : BackgroundSlicingProcess) : Prop :=
  consistent s = true ∧ s.m_print.m_state_mutex_locked = false ∧
    s.m_state ≠ State.STATE_EXIT ∧ s.m_state ≠ State.STATE_EXITED


/-- The lock and unlock calls on the state lock of the job. -/
def is_lock_call : JobCall → Bool
  | .state_mutex_lock => true
  | .state_mutex_unlock => true
  | _ => false

/-- A state of each kind, with the worker where the state says. -/
def sample_state (st : State) (pc : WorkerPc) (locked : Bool) (step : StepState) :
    BackgroundSlicingProcess :=
  { m_state := st,
    m_print := { fresh_print false PrinterTechnology.ptFFF with
      m_state_mutex_locked := locked,
      m_cancel_callback := CancelCallback.stop_internal },
    m_export_path := "", m_step_state := fun _ => step, m_thread := pc, m_events := [] }

/-- The state that `start()` tests, once the worker thread has been brought up:
Idle when the call found the state Initial, the state found otherwise. -/
def state_with_thread (s : BackgroundSlicingProcess) : State :=
  if s.m_state = State.STATE_INITIAL then State.STATE_IDLE else s.m_state

/-- A run that the user canceled and whose processing also left an error text,
about to be published by the worker. -/
def sample_canceled_state : BackgroundSlicingProcess :=
  { m_state := State.STATE_RUNNING,
    m_print := (fresh_print false PrinterTechnology.ptFFF).cancel,
    m_export_path := "a.gcode", m_step_state := fun _ => StepState.Started,
    m_thread := WorkerPc.processed "Copying failed", m_events := [] }

/-- The assertion at the head of the loop of `thread_proc` (line 161). -/
def loop_head_assertion (s : BackgroundSlicingProcess) : Bool :=
  s.m_state == State.STATE_IDLE || s.m_state == State.STATE_CANCELED ||
    s.m_state == State.STATE_FINISHED

/-- The call `m_thread.joinable()`. -/
def joinable (s : BackgroundSlicingProcess) : Bool :=
  s.m_thread != WorkerPc.not_started && s.m_thread != WorkerPc.joined

/-- The assertions of `join_background_thread` (lines 222, 224 and 225). -/
def join_background_thread_assertions (s : BackgroundSlicingProcess) : Bool :=
  if s.m_state = State.STATE_INITIAL then ! joinable s
  else s.m_state == State.STATE_IDLE && joinable s

/-- The destructor (lines 40 to 45): `stop()`, then `join_background_thread()`.
The removal of the temporary file that ends it acts on the file system, which
is not part of the state of the coordinator. -/
def destructor (o : Oracle) (s : BackgroundSlicingProcess) : Outcome Unit :=
  (stop o s).andThen fun _ s1 => join_background_thread o s1

/-- An oracle of a run whose processing raises a `std::exception`. -/
def oracle_failing : Oracle :=
  { process := some (Thrown.std_exception "Out of memory"), export_gcode := none,
    finalize_output_path := fun p => p, copy_file := 0,
    run_post_process_scripts := none, export_raster := none }

/-- The status calls with which a run reports that it has exported to the target
`p`: the message of `process_fff` (line 90), which names the target after its
finalization by the print statistics, or the message of `process_sla`
(line 145). -/
def is_export_status (p : String) (c : JobCall) : Prop :=
  (∃ q, c = JobCall.set_status 100 ("G-code file exported to " ++ q)) ∨
    c = JobCall.set_status 100 ("Zip file exported to " ++ p)

/-- A finalize step that is Done while an export target is set comes from a run
that exported: the job has received the status of an export. -/
def export_recorded (s : BackgroundSlicingProcess) : Prop :=
  s.m_export_path ≠ "" →
    s.m_step_state BackgroundSlicingProcessStep.bspsGCodeFinalize = StepState.Done →
      ∃ c ∈ s.m_print.m_calls, is_export_status s.m_export_path c

/-- The results of a call satisfy `P`, and the call does not block. -/
def Outcome.Holds {α : Type} (P : BackgroundSlicingProcess → Prop) : Outcome α → Prop
  | .returned _ s1 => P s1
  | .thrown _ s1 => P s1
  | .blocked => False

/-- One event of a history of the coordinator over all its operations: a call of
the control thread, or one section executed by the worker. -/
inductive Call where
  | start (o : Oracle)
  | stop (o : Oracle)
  | reset (o : Oracle)
  | schedule_export (o : Oracle) (path : String)
  | reset_export (o : Oracle)
  | worker (o : Oracle)

/-- The state a call ends in; `none` when it never returns. -/
def Outcome.final {α : Type} : Outcome α → Option BackgroundSlicingProcess
  | .returned _ s1 => some s1
  | .thrown _ s1 => some s1
  | .blocked => none

/-- The state after one call; `none` when the call never returns. A worker that
cannot move leaves the state as it is. -/
def Call.perform (running : State → Bool) (c : Call)
    (s : BackgroundSlicingProcess) : Option BackgroundSlicingProcess :=
  match c with
  | .start o => (Slic3r.start running o s).final
  | .stop o => (Slic3r.stop o s).final
  | .reset o => (Slic3r.reset running o s).final
  | .schedule_export o path => (Slic3r.schedule_export o path s).final
  | .reset_export o => (Slic3r.reset_export running o s).final
  | .worker o =>
    match thread_proc_step o s with
    | some s1 => some s1
    | none => some s

/-- The state after a sequence of calls. -/
def perform_calls (running : State → Bool) :
    List Call → BackgroundSlicingProcess → Option BackgroundSlicingProcess
  | [], s => some s
  | c :: rest, s =>
    match c.perform running s with
    | some s1 => perform_calls running rest s1
    | none => none

/-- The invariant of the histories over all operations: that of the histories of
`start()` and `stop()`, no step touched before the first run, and an export
behind every finalize step that is Done while a target is set. -/
def coordinator_invariant (s : BackgroundSlicingProcess) : Prop :=
  history_invariant s ∧
    (s.m_state = State.STATE_INITIAL → ∀ step, s.m_step_state step = StepState.Pending) ∧
    export_recorded s

/-- No external call of the run fails. -/
def Oracle.succeeds (o : Oracle) : Prop :=
  o.process = none ∧ o.export_gcode = none ∧ o.copy_file = 0 ∧
    o.run_post_process_scripts = none ∧ o.export_raster = none

/-- A run requested by `start()` with an export scheduled, the worker waiting to
be woken. -/
def sample_export_state : BackgroundSlicingProcess :=
  { m_state := State.STATE_STARTED,
    m_print := { fresh_print false PrinterTechnology.ptFFF with
      m_cancel_callback := CancelCallback.stop_internal },
    m_export_path := "a.gcode", m_step_state := fun _ => StepState.Pending,
    m_thread := WorkerPc.waiting, m_events := [] }
/-! ## The processing of a run -/

theorem Frame.refl (s : BackgroundSlicingProcess) : Frame s s :=
  ⟨rfl, rfl, rfl, rfl, rfl, rfl, rfl, ⟨[], by simp, by simp⟩, [], by simp, by simp⟩

theorem Frame.trans {a b c : BackgroundSlicingProcess} (h1 : Frame a b) (h2 : Frame b c) :
    Frame a c := by
  obtain ⟨h11, h13, h14, h15, h16, h17, h18, ⟨e1, h19, h1a⟩, v1, h1b, h1c⟩ := h1
  obtain ⟨h21, h23, h24, h25, h26, h27, h28, ⟨e2, h29, h2a⟩, v2, h2b, h2c⟩ := h2
  refine ⟨h21.trans h11, h23.trans h13, h24.trans h14, h25.trans h15,
    h26.trans h16, h27.trans h17, h28.trans h18, ⟨e1 ++ e2, ?_, ?_⟩, v1 ++ v2, ?_, ?_⟩
  · rw [h29, h19, List.append_assoc]
  · intro c hc
    rcases List.mem_append.mp hc with h | h
    · exact h1a c h
    · exact h2a c h
  · rw [h2b, h1b, List.append_assoc]
  · intro c hc
    rcases List.mem_append.mp hc with h | h
    · exact h1c c h
    · exact h2c c h

theorem Frame.set_status (percent : Nat) (message : String) (s : BackgroundSlicingProcess) :
    Frame s (set_status percent message s) :=
  ⟨rfl, rfl, rfl, rfl, rfl, rfl, rfl, ⟨[JobCall.set_status percent message], rfl,
    by simp [is_set_status]⟩, [], by simp [Slic3r.set_status], by simp⟩

theorem Frame.wxQueueEvent (s : BackgroundSlicingProcess) :
    Frame s (wxQueueEvent Event.slicing_completed s) :=
  ⟨rfl, rfl, rfl, rfl, rfl, rfl, rfl, ⟨[], by simp [Slic3r.wxQueueEvent], by simp⟩, [Event.slicing_completed], rfl, by simp⟩

theorem Frame.set_flag (s : BackgroundSlicingProcess)
    (f : BackgroundSlicingProcessStep → StepState) :
    Frame s { s with m_step_state := f } :=
  ⟨rfl, rfl, rfl, rfl, rfl, rfl, rfl, ⟨[], by simp, by simp⟩, [], by simp, by simp⟩

theorem Outcome.Framed.andThen {α β : Type} {s : BackgroundSlicingProcess} {r : Outcome α}
    {k : α → BackgroundSlicingProcess → Outcome β} (hr : r.Framed s)
    (hk : ∀ v s1, Frame s s1 → (k v s1).Framed s) : (r.andThen k).Framed s := by
  cases r with
  | returned v s1 => exact hk v s1 hr
  | thrown ex s1 => exact hr
  | blocked => exact hr

theorem Outcome.Framed.mono {α : Type} {a b : BackgroundSlicingProcess} {r : Outcome α}
    (hab : Frame a b) (hr : r.Framed b) : r.Framed a := by
  cases r with
  | returned v s1 => exact hab.trans hr
  | thrown ex s1 => exact hab.trans hr
  | blocked => exact hr

theorem throw_if_canceled_framed (s : BackgroundSlicingProcess) :
    (throw_if_canceled s).Framed s := by
  unfold throw_if_canceled
  split <;> exact Frame.refl s

theorem set_step_started_framed (step : BackgroundSlicingProcessStep)
    (s : BackgroundSlicingProcess) : (set_step_started step s).Framed s := by
  unfold set_step_started
  refine (throw_if_canceled_framed s).andThen ?_
  intro _ s1 h
  split
  · exact h
  · exact h.trans (Frame.set_flag s1 _)

theorem set_step_done_framed (step : BackgroundSlicingProcessStep)
    (s : BackgroundSlicingProcess) : (set_step_done step s).Framed s := by
  unfold set_step_done
  refine (throw_if_canceled_framed s).andThen ?_
  intro _ s1 h
  exact h.trans (Frame.set_flag s1 _)

theorem process_fff_framed (o : Oracle) (s : BackgroundSlicingProcess) :
    (process_fff o s).Framed s := by
  unfold process_fff
  split
  · exact Frame.refl s
  · split
    · exact Frame.wxQueueEvent s
    · refine Outcome.Framed.mono (Frame.wxQueueEvent s) ?_
      refine (set_step_started_framed _ _).andThen ?_
      intro started s1 h
      split
      · refine Outcome.Framed.andThen ?_ ?_
        · split
          · split
            · exact h
            · split
              · exact h.trans (Frame.set_status _ _ _)
              · exact h.trans ((Frame.set_status _ _ _).trans (Frame.set_status _ _ _))
          · exact h.trans (Frame.set_status _ _ _)
        · intro _ s2 h2
          exact Outcome.Framed.mono h2 (set_step_done_framed _ s2)
      · exact h

theorem process_sla_framed (o : Oracle) (s : BackgroundSlicingProcess) :
    (process_sla o s).Framed s := by
  unfold process_sla
  split
  · exact Frame.refl s
  · refine (set_step_started_framed _ _).andThen ?_
    intro started s1 h
    split
    · refine Outcome.Framed.andThen ?_ ?_
      · split
        · split
          · exact h
          · exact h.trans (Frame.set_status _ _ _)
        · exact h
      · intro _ s2 h2
        exact Outcome.Framed.mono h2 (set_step_done_framed _ s2)
    · exact h

theorem process_by_technology_framed (o : Oracle) (s : BackgroundSlicingProcess) :
    (process_by_technology o s).Framed s := by
  unfold process_by_technology
  split
  · exact process_fff_framed o s
  · exact process_sla_framed o s
  · split
    · exact Frame.refl s
    · exact Frame.refl s

theorem try_process_frame (o : Oracle) (s : BackgroundSlicingProcess) :
    ∃ e s1, try_process o s = some (e, s1) ∧ Frame s s1 := by
  have hr := process_by_technology_framed o s
  unfold try_process
  generalize process_by_technology o s = r at hr
  cases r with
  | returned v s1 => exact ⟨_, _, rfl, hr⟩
  | thrown ex s1 => cases ex <;> exact ⟨_, _, rfl, hr⟩
  | blocked => exact hr.elim

theorem publish_result_thread (e : String) (s : BackgroundSlicingProcess) (pc : WorkerPc) :
    publish_result e { s with m_thread := pc } = publish_result e s := by
  unfold publish_result
  simp only [wxQueueEvent]
  split <;> rfl

theorem publish_result_state (e : String) (s : BackgroundSlicingProcess) :
    (publish_result e s).m_state =
      if s.m_print.canceled then State.STATE_CANCELED else State.STATE_FINISHED := by
  unfold publish_result
  simp only [wxQueueEvent]
  split <;> rfl

theorem run_worker_until_of_true (pred : BackgroundSlicingProcess → Bool) (o : Oracle)
    (n : Nat) (s : BackgroundSlicingProcess) (h : pred s = true) :
    run_worker_until pred o n s = some s := by
  cases n <;> simp [run_worker_until, h]

theorem run_worker_until_succ (pred : BackgroundSlicingProcess → Bool) (o : Oracle)
    (n : Nat) (s s1 : BackgroundSlicingProcess) (h : pred s = false)
    (hstep : thread_proc_step o s = some s1) :
    run_worker_until pred o (n + 1) s = run_worker_until pred o n s1 := by
  simp [run_worker_until, h, hstep]

theorem thread_proc_step_processed (o : Oracle) (s : BackgroundSlicingProcess) (e : String)
    (h : s.m_thread = WorkerPc.processed e) :
    thread_proc_step o s = some (publish_result e s) := by
  simp [thread_proc_step, h]

theorem thread_proc_step_processing (o : Oracle) (s s1 : BackgroundSlicingProcess)
    (e : String) (h : s.m_thread = WorkerPc.processing)
    (hl : s.m_print.m_state_mutex_locked = false) (htry : try_process o s = some (e, s1)) :
    thread_proc_step o s = some { s1 with m_thread := WorkerPc.processed e } := by
  simp [thread_proc_step, h, hl, htry]

theorem thread_proc_step_waiting_started (o : Oracle) (s : BackgroundSlicingProcess)
    (h : s.m_thread = WorkerPc.waiting) (hst : s.m_state = State.STATE_STARTED) :
    thread_proc_step o s =
      some { s with m_state := State.STATE_RUNNING, m_thread := WorkerPc.processing } := by
  simp [thread_proc_step, h, hst]

theorem thread_proc_step_loop_head (o : Oracle) (s : BackgroundSlicingProcess)
    (h : s.m_thread = WorkerPc.loop_head) :
    thread_proc_step o s = some { s with m_thread := WorkerPc.waiting } := by
  simp [thread_proc_step, h]

/-- The worker, standing in the processing of a run, completes it. -/
theorem worker_completes_processing (pred : State → Bool) (o : Oracle)
    (s : BackgroundSlicingProcess) (n : Nat)
    (hst : s.m_state = State.STATE_RUNNING) (ht : s.m_thread = WorkerPc.processing)
    (hl : s.m_print.m_state_mutex_locked = false)
    (hR : pred State.STATE_RUNNING = false)
    (hp : pred (if s.m_print.canceled then State.STATE_CANCELED else State.STATE_FINISHED)
      = true) :
    ∃ e s0, Frame s s0 ∧
      run_worker_until (fun s => pred s.m_state) o (n + 2) s
        = some (publish_result e s0) := by
  obtain ⟨e, s1, htry, hf⟩ := try_process_frame o s
  refine ⟨e, s1, hf, ?_⟩
  have hcan : s1.m_print.canceled = s.m_print.canceled := by
    simp [PrintBase.canceled, hf.2.2.2.2.1]
  rw [run_worker_until_succ _ o (n + 1) s _ (by simp [hst, hR])
    (thread_proc_step_processing o s s1 e ht hl htry)]
  rw [run_worker_until_succ _ o n _ _ (by simp [hf.1, hst, hR])
    (thread_proc_step_processed o _ e rfl)]
  rw [publish_result_thread]
  apply run_worker_until_of_true
  simp only [publish_result_state, hcan]
  exact hp

/-- The worker completes the run that is requested or under way. -/
theorem worker_completes_run (pred : State → Bool) (o : Oracle) (s : BackgroundSlicingProcess)
    (hc : consistent s = true)
    (hst : s.m_state = State.STATE_STARTED ∨ s.m_state = State.STATE_RUNNING)
    (hl : s.m_print.m_state_mutex_locked = false)
    (hS : pred State.STATE_STARTED = false) (hR : pred State.STATE_RUNNING = false)
    (hp : pred (if s.m_print.canceled then State.STATE_CANCELED else State.STATE_FINISHED)
      = true) :
    ∃ e s0, Frame { s with m_state := State.STATE_RUNNING } s0 ∧
      cond_wait pred o s = some (publish_result e s0) := by
  unfold cond_wait wait_bound
  obtain ⟨st, pr, path, steps, th, evs⟩ := s
  simp only at hst hl hp
  rcases hst with rfl | rfl
  · -- Started: the worker is at the loop head or waiting
    cases th <;> simp [consistent] at hc
    · rw [run_worker_until_succ _ o 5 _ _ (by simp [hS]) (thread_proc_step_loop_head o _ rfl)]
      rw [run_worker_until_succ _ o 4 _ _ (by simp [hS])
        (thread_proc_step_waiting_started o _ rfl rfl)]
      obtain ⟨e, s0, hf, hrun⟩ := worker_completes_processing pred o
        ⟨State.STATE_RUNNING, pr, path, steps, WorkerPc.processing, evs⟩ 2 rfl rfl hl hR hp
      exact ⟨e, s0, hf, hrun⟩
    · rw [run_worker_until_succ _ o 5 _ _ (by simp [hS])
        (thread_proc_step_waiting_started o _ rfl rfl)]
      obtain ⟨e, s0, hf, hrun⟩ := worker_completes_processing pred o
        ⟨State.STATE_RUNNING, pr, path, steps, WorkerPc.processing, evs⟩ 3 rfl rfl hl hR hp
      exact ⟨e, s0, hf, hrun⟩
  · cases th <;> simp [consistent] at hc
    · obtain ⟨e, s0, hf, hrun⟩ := worker_completes_processing pred o
        ⟨State.STATE_RUNNING, pr, path, steps, WorkerPc.processing, evs⟩ 4 rfl rfl hl hR hp
      exact ⟨e, s0, hf, hrun⟩
    · rename_i e
      refine ⟨e, _, Frame.refl _, ?_⟩
      rw [run_worker_until_succ _ o 5 _ _ (by simp [hR]) (thread_proc_step_processed o _ e rfl)]
      apply run_worker_until_of_true
      simp only [publish_result_state]
      exact hp

theorem publish_result_pc (e : String) (s : BackgroundSlicingProcess) :
    (publish_result e s).m_thread = WorkerPc.loop_head := by
  unfold publish_result
  simp only [wxQueueEvent]

theorem worker_rank_decreases (o : Oracle) (s s1 : BackgroundSlicingProcess)
    (h : thread_proc_step o s = some s1) : worker_rank s1 < worker_rank s := by
  obtain ⟨st, pr, path, steps, th, evs⟩ := s
  cases th
  case processing =>
    obtain ⟨e, s2, htry, hf⟩ := try_process_frame o
      ⟨st, pr, path, steps, WorkerPc.processing, evs⟩
    simp only [thread_proc_step, htry] at h
    split at h
    · exact absurd h (by simp)
    · cases Option.some.inj h
      show worker_rank { s2 with m_thread := WorkerPc.processed e } < _
      simp [worker_rank]
  case processed e =>
    simp only [thread_proc_step] at h
    cases Option.some.inj h
    have h1 := publish_result_pc e ⟨st, pr, path, steps, WorkerPc.processed e, evs⟩
    have h2 := publish_result_state e ⟨st, pr, path, steps, WorkerPc.processed e, evs⟩
    generalize publish_result e ⟨st, pr, path, steps, WorkerPc.processed e, evs⟩ = t at h1 h2
    obtain ⟨st2, pr2, path2, steps2, th2, evs2⟩ := t
    simp only at h1 h2
    subst h1
    by_cases hcan : pr.canceled = true <;> simp [hcan] at h2 <;> subst h2 <;>
      simp [worker_rank]
  all_goals
    cases st <;> simp [thread_proc_step] at h <;> cases h <;> simp [worker_rank]

theorem worker_rank_zero_stuck (o : Oracle) (s : BackgroundSlicingProcess)
    (h : worker_rank s = 0) : thread_proc_step o s = none := by
  cases hstep : thread_proc_step o s with
  | none => rfl
  | some s1 =>
    have := worker_rank_decreases o s s1 hstep
    omega

theorem worker_rank_le (s : BackgroundSlicingProcess) : worker_rank s ≤ 5 := by
  obtain ⟨st, pr, path, steps, th, evs⟩ := s
  cases th <;> cases st <;> simp [worker_rank]

/-- More fuel than the rank of the worker does not change the result of a wait. -/
theorem run_worker_until_fuel (pred : BackgroundSlicingProcess → Bool) (o : Oracle) :
    ∀ (n m : Nat) (s : BackgroundSlicingProcess), worker_rank s ≤ n → worker_rank s ≤ m →
      run_worker_until pred o n s = run_worker_until pred o m s := by
  intro n
  induction n with
  | zero =>
    intro m s hn _
    have hstuck := worker_rank_zero_stuck o s (by omega)
    cases m <;> simp [run_worker_until, hstuck]
  | succ n ih =>
    intro m s hn hm
    cases m with
    | zero =>
      have hstuck := worker_rank_zero_stuck o s (by omega)
      simp [run_worker_until, hstuck]
    | succ m =>
      simp only [run_worker_until]
      split
      · rfl
      · cases hstep : thread_proc_step o s with
        | none => rfl
        | some s1 =>
          have := worker_rank_decreases o s s1 hstep
          exact ih m s1 (by omega) (by omega)

/-- The fuel `wait_bound` is enough for every wait: with any larger fuel the wait
ends in the same way. -/
theorem run_worker_until_bound (pred : BackgroundSlicingProcess → Bool) (o : Oracle)
    (n : Nat) (s : BackgroundSlicingProcess) (h : wait_bound ≤ n) :
    run_worker_until pred o n s = run_worker_until pred o wait_bound s := by
  have := worker_rank_le s
  unfold wait_bound at h ⊢
  exact run_worker_until_fuel pred o n 6 s (by omega) (by omega)


/-! ## The control thread and the histories -/

theorem publish_result_print (e : String) (s : BackgroundSlicingProcess) :
    (publish_result e s).m_print = s.m_print.restart := by
  unfold publish_result
  simp only [wxQueueEvent]
  split <;> rfl

theorem publish_result_export_path (e : String) (s : BackgroundSlicingProcess) :
    (publish_result e s).m_export_path = s.m_export_path := by
  unfold publish_result
  simp only [wxQueueEvent]
  split <;> rfl

theorem publish_result_step_state (e : String) (s : BackgroundSlicingProcess) :
    (publish_result e s).m_step_state = s.m_step_state := by
  unfold publish_result
  simp only [wxQueueEvent]
  split <;> rfl

theorem publish_result_events (e : String) (s : BackgroundSlicingProcess) :
    (publish_result e s).m_events =
      s.m_events ++
        (if s.m_print.cancel_status = CancelStatus.CANCELED_INTERNAL then []
         else [Event.finished e (finished_code s.m_print.canceled e)]) := by
  unfold publish_result
  simp only [wxQueueEvent]
  by_cases h : s.m_print.cancel_status = CancelStatus.CANCELED_INTERNAL <;> simp [h]

/-- What `stop()` does in each state, for a worker that stands where the state
says and a caller that does not hold the state lock of the job. -/
theorem stop_returns (o : Oracle) (s : BackgroundSlicingProcess)
    (hc : consistent s = true) (hl : s.m_print.m_state_mutex_locked = false) :
    ∃ b s1, stop o s = Outcome.returned b s1 ∧
      (b = false ↔ s.m_state = State.STATE_INITIAL) ∧
      (s.m_state = State.STATE_INITIAL ∨ s.m_state = State.STATE_IDLE ∨
        s.m_state = State.STATE_EXIT ∨ s.m_state = State.STATE_EXITED → s1 = s) ∧
      (s.m_state = State.STATE_STARTED ∨ s.m_state = State.STATE_RUNNING ∨
        s.m_state = State.STATE_FINISHED ∨ s.m_state = State.STATE_CANCELED →
          s1.m_state = State.STATE_IDLE) ∧
      consistent s1 = true ∧ s1.m_print.m_state_mutex_locked = false ∧
      s1.m_export_path = s.m_export_path ∧ s1.m_print.m_empty = s.m_print.m_empty := by
  by_cases hact : s.m_state = State.STATE_STARTED ∨ s.m_state = State.STATE_RUNNING
  · obtain ⟨e, s0, hf, hw⟩ := worker_completes_run (fun st => st == State.STATE_CANCELED) o
      { s with m_print := s.m_print.cancel } (by simpa [consistent] using hc) hact
      (by simpa [PrintBase.cancel] using hl) (by decide) (by decide)
      (by simp [PrintBase.cancel, PrintBase.canceled])
    have hni : s.m_state ≠ State.STATE_INITIAL := by rcases hact with h | h <;> simp [h]
    refine ⟨true, { publish_result e s0 with
        m_state := State.STATE_IDLE,
        m_print := (publish_result e s0).m_print.set_cancel_callback CancelCallback.noop },
      ?_, ?_, ?_, ?_, ?_, ?_, ?_, ?_⟩
    · unfold stop
      rw [if_neg hni, if_pos hact, hw]
    · simp [hni]
    · intro h
      rcases hact with h1 | h1 <;> simp [h1] at h
    · intro _; rfl
    · simp [consistent, publish_result_pc]
    · simp [publish_result_print, PrintBase.set_cancel_callback, PrintBase.restart]
      simpa [PrintBase.cancel, hl] using hf.2.2.2.2.2.2.1
    · simp only [publish_result_export_path]
      exact hf.2.1
    · simp [publish_result_print, PrintBase.set_cancel_callback, PrintBase.restart]
      simpa [PrintBase.cancel] using hf.2.2.1
  · obtain ⟨st, pr, path, steps, th, evs⟩ := s
    simp only at hact hl
    cases st <;> simp at hact <;>
      simp [stop, hl, PrintBase.set_cancel_callback] <;>
      (cases th <;> simp [consistent] at hc ⊢)

/-- The first lines of `start()` never block: a thread created in the state
Initial reports Idle. -/
theorem start_thread_eq (o : Oracle) (s : BackgroundSlicingProcess) :
    start_thread o s = some
      (if s.m_state = State.STATE_INITIAL then
        { s with m_state := State.STATE_IDLE, m_thread := WorkerPc.loop_head }
      else s) := by
  unfold start_thread
  split
  · rename_i h
    simp [cond_wait, wait_bound, run_worker_until, thread_proc_step, h]
  · rfl

theorem start_preserves_invariant (running : State → Bool) (o : Oracle)
    (s : BackgroundSlicingProcess) (h : history_invariant s) :
    ∃ s1, (Action.start o).perform running s = some s1 ∧ history_invariant s1 := by
  obtain ⟨st, ⟨em, tech, cs, cb, lk, calls⟩, path, steps, th, evs⟩ := s
  obtain ⟨hc, hl, h1, h2⟩ := h
  simp only at hl h1 h2
  subst hl
  have hrun : ∀ x, running x = true ∨ running x = false := fun x => by
    cases running x <;> simp
  cases em
  · rcases hrun State.STATE_IDLE with hI | hI <;> rcases hrun st with hs | hs <;>
      cases st <;> cases th <;> simp [consistent] at hc h1 h2 <;>
      simp_all [Action.perform, start, start_thread, PrintBase.empty, cond_wait, wait_bound,
        run_worker_until, thread_proc_step, idle, history_invariant, consistent,
        PrintBase.set_cancel_callback]
  · exact ⟨_, by simp [Action.perform, start, PrintBase.empty], hc, rfl, h1, h2⟩

theorem thread_proc_step_preserves_invariant (o : Oracle)
    (s s1 : BackgroundSlicingProcess) (h : history_invariant s)
    (hstep : thread_proc_step o s = some s1) : history_invariant s1 := by
  obtain ⟨st, pr, path, steps, th, evs⟩ := s
  obtain ⟨hc, hl, h1, h2⟩ := h
  simp only at hl h1 h2
  cases th
  case processing =>
    obtain ⟨e, s2, htry, hf⟩ := try_process_frame o
      ⟨st, pr, path, steps, WorkerPc.processing, evs⟩
    simp only [thread_proc_step, htry, hl] at hstep
    cases Option.some.inj hstep
    have hst : st = State.STATE_RUNNING := by cases st <;> simp [consistent] at hc ⊢
    have := hf.1
    have := hf.2.2.2.2.2.2.1
    simp_all [history_invariant, consistent]
  case processed e =>
    simp only [thread_proc_step] at hstep
    cases Option.some.inj hstep
    refine ⟨?_, ?_, ?_, ?_⟩
    · unfold consistent
      rw [publish_result_pc, publish_result_state]
      by_cases hcan : pr.canceled = true <;> simp [hcan]
    · rw [publish_result_print]
      exact hl
    · rw [publish_result_state]; split <;> simp
    · rw [publish_result_state]; split <;> simp
  all_goals
    cases st <;> simp [consistent] at hc h1 h2 <;> simp [thread_proc_step] at hstep <;>
      cases hstep <;> simp [history_invariant, consistent, hl]

theorem perform_preserves_invariant (running : State → Bool) (a : Action)
    (s : BackgroundSlicingProcess) (h : history_invariant s) :
    ∃ s1, a.perform running s = some s1 ∧ history_invariant s1 := by
  cases a with
  | start o => exact start_preserves_invariant running o s h
  | stop o =>
    obtain ⟨b, s1, hs, -, hsame, hidle, hc1, hl1, -, -⟩ := stop_returns o s h.1 h.2.1
    refine ⟨s1, by simp [Action.perform, hs], hc1, hl1, ?_, ?_⟩
    all_goals
      obtain ⟨hc, hl, h1, h2⟩ := h
      intro hx
      have : s.m_state = State.STATE_INITIAL ∨ s.m_state = State.STATE_IDLE ∨
          (s.m_state = State.STATE_STARTED ∨ s.m_state = State.STATE_RUNNING ∨
          s.m_state = State.STATE_FINISHED ∨ s.m_state = State.STATE_CANCELED) := by
        cases hs0 : s.m_state <;> simp_all
      rcases this with h0 | h0 | h0
      · rw [hsame (Or.inl h0)] at hx; simp_all
      · rw [hsame (Or.inr (Or.inl h0))] at hx; simp_all
      · rw [hidle h0] at hx; simp at hx
  | worker o =>
    cases hstep : thread_proc_step o s with
    | none => exact ⟨s, by simp [Action.perform, hstep], h⟩
    | some s1 =>
      exact ⟨s1, by simp [Action.perform, hstep],
        thread_proc_step_preserves_invariant o s s1 h hstep⟩

theorem perform_all_preserves_invariant (running : State → Bool) (acts : List Action) :
    ∀ s : BackgroundSlicingProcess, history_invariant s →
      ∃ s1, perform_all running acts s = some s1 ∧ history_invariant s1 := by
  induction acts with
  | nil => intro s h; exact ⟨s, rfl, h⟩
  | cons a rest ih =>
    intro s h
    obtain ⟨s1, h1, hinv1⟩ := perform_preserves_invariant running a s h
    obtain ⟨s2, h2, hinv2⟩ := ih s1 hinv1
    exact ⟨s2, by simp [perform_all, h1, h2], hinv2⟩

theorem constructed_invariant (p : PrintBase) (hp : p.m_state_mutex_locked = false) :
    history_invariant (constructed p) :=
  ⟨rfl, hp, by simp [constructed], by simp [constructed]⟩


theorem start_returned_true (running : State → Bool) (o : Oracle)
    (s s1 : BackgroundSlicingProcess) (h : start running o s = Outcome.returned true s1) :
    s1.m_state = State.STATE_STARTED ∧ s1.m_print.m_empty = false ∧
      s1.m_print.m_cancel_callback = CancelCallback.stop_internal := by
  unfold start at h
  rw [start_thread_eq] at h
  cases hne : s.m_print.m_empty
  · simp only [PrintBase.empty, hne] at h
    by_cases hi : s.m_state = State.STATE_INITIAL
    · simp only [hi, if_true] at h
      cases hr : running State.STATE_IDLE
      · simp [hr, idle] at h
        subst h
        exact ⟨rfl, hne, rfl⟩
      · simp [hr] at h
    · simp only [hi, if_false] at h
      cases hr : running s.m_state
      · cases hidle : idle s
        · simp [hr, hidle] at h
        · simp [hr, hidle] at h
          subst h
          exact ⟨rfl, hne, rfl⟩
      · simp [hr] at h
  · simp [PrintBase.empty, hne] at h

theorem thread_proc_step_job (o : Oracle) (s s1 : BackgroundSlicingProcess)
    (h : thread_proc_step o s = some s1) :
    s1.m_print.m_empty = s.m_print.m_empty ∧
      s1.m_print.m_cancel_callback = s.m_print.m_cancel_callback := by
  obtain ⟨st, pr, path, steps, th, evs⟩ := s
  cases th
  case processing =>
    obtain ⟨e, s2, htry, hf⟩ := try_process_frame o
      ⟨st, pr, path, steps, WorkerPc.processing, evs⟩
    simp only [thread_proc_step, htry] at h
    split at h
    · simp at h
    · cases Option.some.inj h
      exact ⟨hf.2.2.1, hf.2.2.2.2.2.1⟩
  case processed e =>
    simp only [thread_proc_step] at h
    cases Option.some.inj h
    rw [publish_result_print]
    exact ⟨rfl, rfl⟩
  all_goals
    simp only [thread_proc_step] at h
    first
      | (cases Option.some.inj h; exact ⟨rfl, rfl⟩)
      | (simp at h)
      | (split at h
         · cases Option.some.inj h; exact ⟨rfl, rfl⟩
         · split at h
           · cases Option.some.inj h; exact ⟨rfl, rfl⟩
           · simp at h)

theorem worker_sections_job (running : State → Bool) (ws : List Oracle) :
    ∀ s s1 : BackgroundSlicingProcess,
      perform_all running (ws.map Action.worker) s = some s1 →
      s1.m_print.m_empty = s.m_print.m_empty ∧
        s1.m_print.m_cancel_callback = s.m_print.m_cancel_callback := by
  induction ws with
  | nil => intro s s1 h; cases Option.some.inj h; exact ⟨rfl, rfl⟩
  | cons o rest ih =>
    intro s s1 h
    simp only [List.map, perform_all, Action.perform] at h
    cases hstep : thread_proc_step o s with
    | none =>
      simp only [hstep] at h
      exact ih s s1 h
    | some s2 =>
      simp only [hstep] at h
      obtain ⟨h1, h2⟩ := ih s2 s1 h
      obtain ⟨h3, h4⟩ := thread_proc_step_job o s s2 hstep
      exact ⟨h1.trans h3, h2.trans h4⟩

/-- What `stop_internal()` does while a run is requested or under way: the worker
completes the run, which is canceled internally. -/
theorem stop_internal_of_active (o : Oracle) (s : BackgroundSlicingProcess)
    (hc : consistent s = true)
    (hst : s.m_state = State.STATE_STARTED ∨ s.m_state = State.STATE_RUNNING) :
    ∃ e s0, Frame { s with m_state := State.STATE_RUNNING,
                           m_print := s.m_print.cancel_internal.state_mutex_unlock } s0 ∧
      stop_internal o s = Outcome.returned ()
        { publish_result e s0 with
          m_state := State.STATE_IDLE,
          m_print := (publish_result e s0).m_print.state_mutex_lock.set_cancel_callback
            CancelCallback.noop } := by
  obtain ⟨e, s0, hf, hw⟩ := worker_completes_run (fun st => st == State.STATE_CANCELED) o
    { s with m_print := s.m_print.cancel_internal.state_mutex_unlock }
    (by simpa [consistent] using hc) hst
    (by simp [PrintBase.state_mutex_unlock]) (by decide) (by decide)
    (by simp [PrintBase.cancel_internal, PrintBase.state_mutex_unlock, PrintBase.canceled])
  have hni : s.m_state ≠ State.STATE_IDLE := by rcases hst with h | h <;> simp [h]
  refine ⟨e, s0, hf, ?_⟩
  unfold stop_internal
  rw [if_neg hni, if_pos hst, hw]

theorem stop_internal_of_idle (o : Oracle) (s : BackgroundSlicingProcess)
    (h : s.m_state = State.STATE_IDLE) : stop_internal o s = Outcome.returned () s := by
  simp [stop_internal, h]

theorem stop_internal_of_inactive (o : Oracle) (s : BackgroundSlicingProcess)
    (h1 : s.m_state ≠ State.STATE_IDLE) (h2 : s.m_state ≠ State.STATE_STARTED)
    (h3 : s.m_state ≠ State.STATE_RUNNING) :
    stop_internal o s = Outcome.returned ()
      { s with m_state := State.STATE_IDLE,
               m_print := s.m_print.set_cancel_callback CancelCallback.noop } := by
  simp [stop_internal, h1, h2, h3]

theorem filter_lock_call_of_set_status (extra : List JobCall)
    (h : ∀ c ∈ extra, is_set_status c = true) :
    extra.filter is_lock_call = [] ∧ JobCall.cancel ∉ extra ∧
      JobCall.cancel_internal ∉ extra := by
  refine ⟨?_, ?_, ?_⟩
  · rw [List.filter_eq_nil_iff]
    intro c hc
    have := h c hc
    cases c <;> simp [is_set_status, is_lock_call] at this ⊢
  · intro hc
    have := h _ hc
    simp [is_set_status] at this
  · intro hc
    have := h _ hc
    simp [is_set_status] at this

/-- The call `invalidate_step` returns, leaves the step Pending and does not touch
the export target. -/
theorem invalidate_step_returns (o : Oracle) (step : BackgroundSlicingProcessStep)
    (s : BackgroundSlicingProcess) (hc : consistent s = true) :
    ∃ b s1, invalidate_step o step s = Outcome.returned b s1 ∧
      s1.m_step_state step = StepState.Pending ∧ s1.m_export_path = s.m_export_path := by
  unfold invalidate_step
  cases hflag : s.m_step_state step
  · exact ⟨false, s, rfl, hflag, rfl⟩
  · simp only
    by_cases hact : s.m_state = State.STATE_STARTED ∨ s.m_state = State.STATE_RUNNING
    · obtain ⟨e, s0, hf, hs⟩ := stop_internal_of_active o s hc hact
      rw [hs]
      simp only [Outcome.andThen]
      refine ⟨true, _, rfl, ?_, ?_⟩
      · simp [set_flag]
      · simp only [publish_result_export_path]
        exact hf.2.1
    · by_cases hidle : s.m_state = State.STATE_IDLE
      · rw [stop_internal_of_idle o s hidle]
        simp only [Outcome.andThen]
        refine ⟨true, _, rfl, ?_, rfl⟩
        simp [set_flag]
      · rw [stop_internal_of_inactive o s hidle (fun h => hact (Or.inl h))
          (fun h => hact (Or.inr h))]
        simp only [Outcome.andThen]
        refine ⟨true, _, rfl, ?_, rfl⟩
        simp [set_flag]
  · refine ⟨true, _, rfl, ?_, rfl⟩
    simp [set_flag]

theorem invalidate_step_of_pending (o : Oracle) (step : BackgroundSlicingProcessStep)
    (s : BackgroundSlicingProcess) (h : s.m_step_state step = StepState.Pending) :
    invalidate_step o step s = Outcome.returned false s := by
  simp [invalidate_step, h]

/-- During `stop_internal()` the only events queued are the `slicing_completed`
events of the processing. -/
theorem stop_internal_events (o : Oracle) (s : BackgroundSlicingProcess)
    (hc : consistent s = true) :
    ∃ s1 evs, stop_internal o s = Outcome.returned () s1 ∧
      s1.m_events = s.m_events ++ evs ∧ ∀ ev ∈ evs, ev = Event.slicing_completed := by
  by_cases hact : s.m_state = State.STATE_STARTED ∨ s.m_state = State.STATE_RUNNING
  · obtain ⟨e, s0, hf, hs⟩ := stop_internal_of_active o s hc hact
    obtain ⟨-, -, -, -, hstatus, -, -, -, evs, hevs, hall⟩ := hf
    refine ⟨_, evs, hs, ?_, hall⟩
    have hint : s0.m_print.cancel_status = CancelStatus.CANCELED_INTERNAL := by
      simpa [PrintBase.cancel_status, PrintBase.cancel_internal,
        PrintBase.state_mutex_unlock] using hstatus
    simp only [publish_result_events, hint, if_true, List.append_nil]
    exact hevs
  · by_cases hidle : s.m_state = State.STATE_IDLE
    · exact ⟨s, [], stop_internal_of_idle o s hidle, by simp, by simp⟩
    · exact ⟨_, [], stop_internal_of_inactive o s hidle (fun h => hact (Or.inl h))
        (fun h => hact (Or.inr h)), by simp, by simp⟩

/-- One turn of the loop of `thread_proc`, from the wake-up to the release of
`m_mutex`. -/
theorem thread_proc_loop_body (o : Oracle) (s : BackgroundSlicingProcess)
    (hw : s.m_thread = WorkerPc.waiting) (hst : s.m_state = State.STATE_STARTED)
    (hl : s.m_print.m_state_mutex_locked = false) :
    ∃ s1 s2 s3 error evs,
      thread_proc_step o s = some s1 ∧ s1.m_state = State.STATE_RUNNING ∧
      thread_proc_step o s1 = some s2 ∧ s2.m_thread = WorkerPc.processed error ∧
      thread_proc_step o s2 = some s3 ∧ s3 = publish_result error s2 ∧
      s2.m_print.m_cancel_status = s.m_print.m_cancel_status ∧
      s2.m_events = s.m_events ++ evs ∧ ∀ ev ∈ evs, ev = Event.slicing_completed := by
  obtain ⟨e, s2, htry, hf⟩ := try_process_frame o
    { s with m_state := State.STATE_RUNNING, m_thread := WorkerPc.processing }
  obtain ⟨-, -, -, -, hstatus, -, -, -, evs, hevs, hall⟩ := hf
  exact ⟨_, _, _, e, evs, thread_proc_step_waiting_started o s hw hst, rfl,
    thread_proc_step_processing o _ s2 e rfl hl htry, rfl,
    thread_proc_step_processed o _ e rfl, rfl, hstatus, hevs, hall⟩

/-- What `stop()` does while a run is requested or under way: the worker
completes the run, which is canceled by the user. -/
theorem stop_of_active (o : Oracle) (s : BackgroundSlicingProcess)
    (hc : consistent s = true) (hl : s.m_print.m_state_mutex_locked = false)
    (hst : s.m_state = State.STATE_STARTED ∨ s.m_state = State.STATE_RUNNING) :
    ∃ e s0, Frame { s with m_state := State.STATE_RUNNING,
                           m_print := s.m_print.cancel } s0 ∧
      stop o s = Outcome.returned true
        { publish_result e s0 with
          m_state := State.STATE_IDLE,
          m_print := (publish_result e s0).m_print.set_cancel_callback
            CancelCallback.noop } := by
  obtain ⟨e, s0, hf, hw⟩ := worker_completes_run (fun st => st == State.STATE_CANCELED) o
    { s with m_print := s.m_print.cancel } (by simpa [consistent] using hc) hst
    (by simpa [PrintBase.cancel] using hl) (by decide) (by decide)
    (by simp [PrintBase.cancel, PrintBase.canceled])
  have hni : s.m_state ≠ State.STATE_INITIAL := by rcases hst with h | h <;> simp [h]
  refine ⟨e, s0, hf, ?_⟩
  unfold stop
  rw [if_neg hni, if_pos hst, hw]

/-- In the state Idle `join_background_thread()` tells the worker to exit and
joins it. -/
theorem join_background_thread_of_idle (o : Oracle) (s : BackgroundSlicingProcess)
    (hc : consistent s = true) (hst : s.m_state = State.STATE_IDLE) :
    join_background_thread o s = Outcome.returned ()
      { s with m_state := State.STATE_EXITED, m_thread := WorkerPc.joined } := by
  obtain ⟨st, pr, path, steps, th, evs⟩ := s
  simp only at hst
  subst hst
  cases th <;> simp [consistent] at hc <;>
    simp [join_background_thread, thread_join, wait_bound, run_worker_until,
      thread_proc_step]

theorem export_recorded_of_not_done (s : BackgroundSlicingProcess)
    (h : s.m_step_state BackgroundSlicingProcessStep.bspsGCodeFinalize ≠ StepState.Done) :
    export_recorded s :=
  fun _ hd => absurd hd h

theorem export_recorded_mono (s s1 : BackgroundSlicingProcess)
    (hpath : s1.m_export_path = s.m_export_path) (hsteps : s1.m_step_state = s.m_step_state)
    (hcalls : ∃ extra, s1.m_print.m_calls = s.m_print.m_calls ++ extra)
    (h : export_recorded s) : export_recorded s1 := by
  intro hp hd
  rw [hpath] at hp ⊢
  rw [hsteps] at hd
  obtain ⟨c, hc, hx⟩ := h hp hd
  obtain ⟨extra, he⟩ := hcalls
  exact ⟨c, by rw [he]; exact List.mem_append_left _ hc, hx⟩

/-- The processing of a G-code job keeps `export_recorded`. -/
theorem process_fff_export_recorded (o : Oracle) (s : BackgroundSlicingProcess)
    (h : export_recorded s) : (process_fff o s).Holds export_recorded := by
  unfold process_fff
  cases hp : o.process with
  | some ex => exact h
  | none =>
    have hq : export_recorded (wxQueueEvent Event.slicing_completed s) :=
      export_recorded_mono s _ rfl rfl ⟨[], by simp [wxQueueEvent]⟩ h
    cases he : o.export_gcode with
    | some ex => exact hq
    | none =>
      simp only [set_step_started, throw_if_canceled, set_step_done, Outcome.andThen]
      by_cases hcan : (wxQueueEvent Event.slicing_completed s).m_print.canceled = true
      · simp only [hcan, if_true]
        exact hq
      · have hcan2 : s.m_print.m_cancel_status = CancelStatus.NOT_CANCELED := by
          simpa [wxQueueEvent, PrintBase.canceled] using hcan
        by_cases hd : s.m_step_state BackgroundSlicingProcessStep.bspsGCodeFinalize
            = StepState.Done
        · simp [hcan2, wxQueueEvent, hd, Outcome.Holds, PrintBase.canceled]
          exact hq
        · by_cases hpath : s.m_export_path = ""
          · simp [hcan2, wxQueueEvent, hd, hpath, Outcome.Holds, set_status,
              PrintBase.set_status, PrintBase.canceled, export_recorded]
          · by_cases hcopy : o.copy_file = 0
            · cases hr : o.run_post_process_scripts with
              | some ex =>
                simp [hcan2, wxQueueEvent, hd, hpath, hcopy, hr, Outcome.Holds, set_status,
                  PrintBase.set_status, PrintBase.canceled, export_recorded, set_flag]
              | none =>
                simp [hcan2, wxQueueEvent, hd, hpath, hcopy, hr, Outcome.Holds, set_status,
                  PrintBase.set_status, PrintBase.canceled, export_recorded, set_flag,
                  is_export_status]
                exact ⟨_, Or.inr (Or.inr rfl), Or.inl ⟨_, rfl⟩⟩
            · simp [hcan2, wxQueueEvent, hd, hpath, hcopy, Outcome.Holds, export_recorded,
                PrintBase.canceled, set_flag]

/-- The processing of an SLA job keeps `export_recorded`. -/
theorem process_sla_export_recorded (o : Oracle) (s : BackgroundSlicingProcess)
    (h : export_recorded s) : (process_sla o s).Holds export_recorded := by
  unfold process_sla
  cases hp : o.process with
  | some ex => exact h
  | none =>
    simp only [set_step_started, throw_if_canceled, set_step_done, Outcome.andThen]
    by_cases hcan : s.m_print.canceled = true
    · simp only [hcan, if_true]
      exact h
    · have hcan2 : s.m_print.m_cancel_status = CancelStatus.NOT_CANCELED := by
        simpa [PrintBase.canceled] using hcan
      by_cases hd : s.m_step_state BackgroundSlicingProcessStep.bspsGCodeFinalize
          = StepState.Done
      · simp [hcan2, hd, Outcome.Holds, PrintBase.canceled]
        exact h
      · by_cases hpath : s.m_export_path = ""
        · simp [hcan2, hd, hpath, Outcome.Holds, PrintBase.canceled, export_recorded]
        · cases hr : o.export_raster with
          | some ex =>
            simp [hcan2, hd, hpath, hr, Outcome.Holds, PrintBase.canceled, export_recorded,
              set_flag]
          | none =>
            simp [hcan2, hd, hpath, hr, Outcome.Holds, set_status, PrintBase.set_status,
              PrintBase.canceled, export_recorded, set_flag, is_export_status]
            exact ⟨_, Or.inr rfl, Or.inr rfl⟩

theorem try_process_export_recorded (o : Oracle) (s s1 : BackgroundSlicingProcess)
    (e : String) (h : export_recorded s) (htry : try_process o s = some (e, s1)) :
    export_recorded s1 := by
  have hr : (process_by_technology o s).Holds export_recorded := by
    unfold process_by_technology
    split
    · exact process_fff_export_recorded o s h
    · exact process_sla_export_recorded o s h
    · split <;> exact h
  unfold try_process at htry
  generalize process_by_technology o s = r at hr htry
  cases r with
  | returned v s2 =>
    simp only [caught_error, Option.some.injEq, Prod.mk.injEq] at htry
    rw [← htry.2]; exact hr
  | thrown ex s2 =>
    cases ex <;> simp only [caught_error, Option.some.injEq, Prod.mk.injEq] at htry <;>
      (rw [← htry.2]; exact hr)
  | blocked => exact hr.elim

/-- Every section of the worker keeps `export_recorded`. -/
theorem thread_proc_step_export_recorded (o : Oracle) (s s1 : BackgroundSlicingProcess)
    (h : export_recorded s) (hstep : thread_proc_step o s = some s1) :
    export_recorded s1 := by
  obtain ⟨st, pr, path, steps, th, evs⟩ := s
  cases th
  case processing =>
    simp only [thread_proc_step] at hstep
    split at hstep
    · simp at hstep
    · split at hstep
      · rename_i e s2 htry
        cases Option.some.inj hstep
        exact export_recorded_mono _ _ rfl rfl ⟨[], by simp⟩
          (try_process_export_recorded o _ s2 e h htry)
      · simp at hstep
  case processed e =>
    simp only [thread_proc_step] at hstep
    cases Option.some.inj hstep
    refine export_recorded_mono _ _ (publish_result_export_path e _)
      (publish_result_step_state e _) ⟨[JobCall.restart], ?_⟩ h
    rw [publish_result_print]
    rfl
  all_goals
    simp only [thread_proc_step] at hstep
    first
      | (cases Option.some.inj hstep; exact h)
      | (simp at hstep)
      | (split at hstep
         · cases Option.some.inj hstep; exact h
         · split at hstep
           · cases Option.some.inj hstep; exact h
           · simp at hstep)

/-- A property that every section of the worker keeps still holds when a wait
ends. -/
theorem run_worker_until_preserves (P : BackgroundSlicingProcess → Prop) (o : Oracle)
    (hP : ∀ s s1, P s → thread_proc_step o s = some s1 → P s1)
    (pred : BackgroundSlicingProcess → Bool) :
    ∀ (n : Nat) (s s1 : BackgroundSlicingProcess), P s →
      run_worker_until pred o n s = some s1 → P s1 := by
  intro n
  induction n with
  | zero =>
    intro s s1 hs h
    simp only [run_worker_until] at h
    split at h
    · cases Option.some.inj h; exact hs
    · simp at h
  | succ n ih =>
    intro s s1 hs h
    simp only [run_worker_until] at h
    split at h
    · cases Option.some.inj h; exact hs
    · cases hstep : thread_proc_step o s with
      | none => simp [hstep] at h
      | some s2 =>
        simp only [hstep] at h
        exact ih s2 s1 (hP s s2 hs hstep) h

theorem cond_wait_export_recorded (pred : State → Bool) (o : Oracle)
    (s s1 : BackgroundSlicingProcess) (h : export_recorded s)
    (hw : cond_wait pred o s = some s1) : export_recorded s1 :=
  run_worker_until_preserves export_recorded o
    (fun a b ha hstep => thread_proc_step_export_recorded o a b ha hstep) _ _ s s1 h hw

theorem all_steps_pending (f : BackgroundSlicingProcessStep → StepState)
    (h : f BackgroundSlicingProcessStep.bspsGCodeFinalize = StepState.Pending) :
    ∀ step, f step = StepState.Pending := by
  intro step; cases step; exact h

/-- What `start()` leaves alone. -/
theorem start_quiet (running : State → Bool) (o : Oracle) (s s1 : BackgroundSlicingProcess)
    (h : (start running o s).final = some s1) :
    s1.m_export_path = s.m_export_path ∧ s1.m_step_state = s.m_step_state ∧
      (∃ extra, s1.m_print.m_calls = s.m_print.m_calls ++ extra) ∧
      (s1.m_state = State.STATE_INITIAL → s.m_state = State.STATE_INITIAL) := by
  unfold start at h
  rw [start_thread_eq] at h
  cases hne : s.m_print.empty
  · by_cases hi : s.m_state = State.STATE_INITIAL
    · cases hr : running State.STATE_IDLE
      · simp [hne, hi, hr, idle, Outcome.final] at h
        subst h
        exact ⟨rfl, rfl, ⟨[JobCall.set_cancel_callback CancelCallback.stop_internal], rfl⟩,
          by simp⟩
      · simp [hne, hi, hr, Outcome.final] at h
        subst h
        exact ⟨rfl, rfl, ⟨[], by simp⟩, by simp⟩
    · cases hr : running s.m_state
      · cases hidle : idle s
        · simp [hne, hi, hr, hidle, Outcome.final] at h
          subst h
          exact ⟨rfl, rfl, ⟨[], by simp⟩, id⟩
        · simp [hne, hi, hr, hidle, Outcome.final] at h
          subst h
          exact ⟨rfl, rfl, ⟨[JobCall.set_cancel_callback CancelCallback.stop_internal], rfl⟩,
            by simp⟩
      · simp [hne, hi, hr, Outcome.final] at h
        subst h
        exact ⟨rfl, rfl, ⟨[], by simp⟩, id⟩
  · simp [hne, Outcome.final] at h
    subst h
    exact ⟨rfl, rfl, ⟨[], by simp⟩, id⟩

theorem start_preserves_coordinator_invariant (running : State → Bool) (o : Oracle)
    (s : BackgroundSlicingProcess) (h : coordinator_invariant s) :
    ∃ s1, (Call.start o).perform running s = some s1 ∧ coordinator_invariant s1 := by
  obtain ⟨hh, hinit, hexp⟩ := h
  obtain ⟨s2, hs2, hh2⟩ := start_preserves_invariant running o s hh
  have hfinal : (start running o s).final = some s2 := by
    simp only [Action.perform] at hs2
    cases hout : start running o s with
    | returned v t => simpa [hout, Outcome.final] using hs2
    | thrown ex t => simpa [hout, Outcome.final] using hs2
    | blocked => simp [hout] at hs2
  obtain ⟨hpath, hsteps, hcalls, hst⟩ := start_quiet running o s s2 hfinal
  refine ⟨s2, hfinal, hh2, ?_, export_recorded_mono s s2 hpath hsteps hcalls hexp⟩
  intro h0
  rw [hsteps]
  exact hinit (hst h0)

theorem thread_proc_step_not_initial (o : Oracle) (s s1 : BackgroundSlicingProcess)
    (hc : consistent s = true) (hstep : thread_proc_step o s = some s1) :
    s1.m_state ≠ State.STATE_INITIAL := by
  obtain ⟨st, pr, path, steps, th, evs⟩ := s
  cases th
  case processing =>
    obtain ⟨e, s2, htry, hf⟩ := try_process_frame o
      ⟨st, pr, path, steps, WorkerPc.processing, evs⟩
    simp only [thread_proc_step, htry] at hstep
    split at hstep
    · simp at hstep
    · cases Option.some.inj hstep
      have hst : st = State.STATE_RUNNING := by cases st <;> simp [consistent] at hc ⊢
      have := hf.1
      simp_all
  case processed e =>
    simp only [thread_proc_step] at hstep
    cases Option.some.inj hstep
    rw [publish_result_state]
    split <;> simp
  all_goals
    cases st <;> simp [consistent] at hc <;> simp [thread_proc_step] at hstep <;>
      cases hstep <;> simp

theorem worker_preserves_coordinator_invariant (running : State → Bool) (o : Oracle)
    (s : BackgroundSlicingProcess) (h : coordinator_invariant s) :
    ∃ s1, (Call.worker o).perform running s = some s1 ∧ coordinator_invariant s1 := by
  cases hstep : thread_proc_step o s with
  | none => exact ⟨s, by simp [Call.perform, hstep], h⟩
  | some s1 =>
    obtain ⟨hh, hinit, hexp⟩ := h
    refine ⟨s1, by simp [Call.perform, hstep],
      thread_proc_step_preserves_invariant o s s1 hh hstep, ?_,
      thread_proc_step_export_recorded o s s1 hexp hstep⟩
    intro h0
    exact absurd h0 (thread_proc_step_not_initial o s s1 hh.1 hstep)

theorem stop_export_recorded (o : Oracle) (s s1 : BackgroundSlicingProcess) (b : Bool)
    (h : export_recorded s) (hstop : stop o s = Outcome.returned b s1) :
    export_recorded s1 := by
  unfold stop at hstop
  split at hstop
  · simp only [Outcome.returned.injEq] at hstop
    rw [← hstop.2]; exact h
  · split at hstop
    · split at hstop
      · simp at hstop
      · rename_i s2 hw
        simp only [Outcome.returned.injEq] at hstop
        rw [← hstop.2]
        have h0 : export_recorded { s with m_print := s.m_print.cancel } :=
          export_recorded_mono s { s with m_print := s.m_print.cancel } rfl rfl
            ⟨[JobCall.cancel], rfl⟩ h
        have h2 : export_recorded s2 := cond_wait_export_recorded _ o _ s2 h0 hw
        exact export_recorded_mono s2
          { s2 with m_state := State.STATE_IDLE,
                    m_print := s2.m_print.set_cancel_callback CancelCallback.noop } rfl rfl
          ⟨[JobCall.set_cancel_callback CancelCallback.noop], rfl⟩ h2
    · split at hstop
      · simp only [Outcome.returned.injEq] at hstop
        rw [← hstop.2]
        exact export_recorded_mono s
          { s with m_state := State.STATE_IDLE,
                   m_print := s.m_print.set_cancel_callback CancelCallback.noop } rfl rfl
          ⟨[JobCall.set_cancel_callback CancelCallback.noop], rfl⟩ h
      · simp only [Outcome.returned.injEq] at hstop
        rw [← hstop.2]; exact h

/-- After `stop()` the invariant holds and the state is Initial or Idle. -/
theorem stop_preserves_coordinator_invariant (o : Oracle) (s : BackgroundSlicingProcess)
    (h : coordinator_invariant s) :
    ∃ b s1, stop o s = Outcome.returned b s1 ∧ coordinator_invariant s1 ∧
      (s1.m_state = State.STATE_INITIAL ∨ s1.m_state = State.STATE_IDLE) := by
  obtain ⟨⟨hc, hl, h1, h2⟩, hinit, hexp⟩ := h
  obtain ⟨b, s1, hstop, -, hsame, hidle, hc1, hl1, -, -⟩ := stop_returns o s hc hl
  have hcases : s.m_state = State.STATE_INITIAL ∨ s.m_state = State.STATE_IDLE ∨
      (s.m_state = State.STATE_STARTED ∨ s.m_state = State.STATE_RUNNING ∨
      s.m_state = State.STATE_FINISHED ∨ s.m_state = State.STATE_CANCELED) := by
    cases hs0 : s.m_state <;> simp_all
  have hexp1 := stop_export_recorded o s s1 b hexp hstop
  refine ⟨b, s1, hstop, ?_, ?_⟩
  · rcases hcases with h0 | h0 | h0
    · have := hsame (Or.inl h0); subst this
      exact ⟨⟨hc, hl, h1, h2⟩, hinit, hexp⟩
    · have := hsame (Or.inr (Or.inl h0)); subst this
      exact ⟨⟨hc, hl, h1, h2⟩, hinit, hexp⟩
    · have hi := hidle h0
      exact ⟨⟨hc1, hl1, by simp [hi], by simp [hi]⟩, fun hx => by simp [hi] at hx, hexp1⟩
  · rcases hcases with h0 | h0 | h0
    · left; rw [hsame (Or.inl h0)]; exact h0
    · right; rw [hsame (Or.inr (Or.inl h0))]; exact h0
    · right; exact hidle h0

/-- The call `invalidate_step` returns in every state of the invariant, with the
step Pending and the worker where the state says. -/
theorem invalidate_step_invariant (o : Oracle) (step : BackgroundSlicingProcessStep)
    (s : BackgroundSlicingProcess) (hc : consistent s = true)
    (h1 : s.m_state ≠ State.STATE_EXIT) (h2 : s.m_state ≠ State.STATE_EXITED)
    (hinit : s.m_state = State.STATE_INITIAL → ∀ x, s.m_step_state x = StepState.Pending) :
    ∃ b s1, invalidate_step o step s = Outcome.returned b s1 ∧
      s1.m_step_state step = StepState.Pending ∧ consistent s1 = true ∧
      s1.m_state ≠ State.STATE_EXIT ∧ s1.m_state ≠ State.STATE_EXITED ∧
      (s1.m_state = s.m_state ∨ s1.m_state = State.STATE_IDLE) := by
  unfold invalidate_step
  cases hflag : s.m_step_state step
  · exact ⟨false, s, rfl, hflag, hc, h1, h2, Or.inl rfl⟩
  · simp only
    have hni : s.m_state ≠ State.STATE_INITIAL := by
      intro h0
      have := hinit h0 step
      rw [hflag] at this
      exact absurd this (by decide)
    by_cases hact : s.m_state = State.STATE_STARTED ∨ s.m_state = State.STATE_RUNNING
    · obtain ⟨e, s0, hf, hs⟩ := stop_internal_of_active o s hc hact
      rw [hs]
      simp only [Outcome.andThen]
      refine ⟨true, _, rfl, ?_, ?_, ?_, ?_, Or.inr rfl⟩
      · simp [set_flag]
      · simp [consistent, publish_result_pc]
      · simp
      · simp
    · by_cases hidle : s.m_state = State.STATE_IDLE
      · rw [stop_internal_of_idle o s hidle]
        simp only [Outcome.andThen]
        refine ⟨true, _, rfl, ?_, ?_, h1, h2, Or.inl rfl⟩
        · simp [set_flag]
        · simpa [consistent] using hc
      · rw [stop_internal_of_inactive o s hidle (fun h => hact (Or.inl h))
          (fun h => hact (Or.inr h))]
        simp only [Outcome.andThen]
        refine ⟨true, _, rfl, ?_, ?_, ?_, ?_, Or.inr rfl⟩
        · simp [set_flag]
        · obtain ⟨st, pr, path, steps, th, evs⟩ := s
          simp only at hni hact hidle h1 h2
          cases st <;> simp at hni hact hidle h1 h2 <;>
            (cases th <;> simp [consistent] at hc ⊢)
        · simp
        · simp
  · refine ⟨true, _, rfl, ?_, ?_, h1, h2, Or.inl rfl⟩
    · simp [set_flag]
    · simpa [consistent] using hc

/-- In the state Idle, or on a step that is Pending, `invalidate_step` changes the
flag of the step only. -/
theorem invalidate_step_quiet (o : Oracle) (step : BackgroundSlicingProcessStep)
    (s : BackgroundSlicingProcess)
    (h : s.m_state = State.STATE_IDLE ∨ s.m_step_state step = StepState.Pending) :
    ∃ b f, invalidate_step o step s = Outcome.returned b { s with m_step_state := f } ∧
      f step = StepState.Pending := by
  unfold invalidate_step
  cases hflag : s.m_step_state step
  · exact ⟨false, s.m_step_state, rfl, hflag⟩
  · have hidle : s.m_state = State.STATE_IDLE := by
      rcases h with h | h
      · exact h
      · rw [hflag] at h; exact absurd h (by decide)
    simp only
    rw [stop_internal_of_idle o s hidle]
    exact ⟨true, _, rfl, by simp [set_flag]⟩
  · exact ⟨true, _, rfl, by simp [set_flag]⟩

theorem schedule_export_preserves_coordinator_invariant (running : State → Bool)
    (o : Oracle) (path : String) (s : BackgroundSlicingProcess)
    (h : coordinator_invariant s) :
    ∃ s1, (Call.schedule_export o path).perform running s = some s1 ∧
      coordinator_invariant s1 := by
  by_cases hp : s.m_export_path = ""
  · obtain ⟨⟨hc, hl, h1, h2⟩, hinit, hexp⟩ := h
    obtain ⟨b, s1, hinv, hflag, hc1, h11, h12, -⟩ := invalidate_step_invariant o
      BackgroundSlicingProcessStep.bspsGCodeFinalize
      { s with m_print := s.m_print.state_mutex_lock }
      (by simpa [consistent] using hc) h1 h2 hinit
    refine ⟨{ s1 with m_export_path := path, m_print := s1.m_print.state_mutex_unlock },
      ?_, ⟨?_, rfl, h11, h12⟩, fun _ => all_steps_pending _ hflag, ?_⟩
    · simp only [hp] at hinv
      simp [Call.perform, schedule_export, hp, hinv, Outcome.final]
    · simpa [consistent] using hc1
    · apply export_recorded_of_not_done
      show s1.m_step_state BackgroundSlicingProcessStep.bspsGCodeFinalize ≠ StepState.Done
      rw [hflag]; decide
  · exact ⟨s, by simp [Call.perform, schedule_export, hp, Outcome.final], h⟩

/-- After `reset_export()` the invariant holds, and a state Initial or Idle is
still Initial or Idle. -/
theorem reset_export_preserves_coordinator_invariant (running : State → Bool)
    (o : Oracle) (s : BackgroundSlicingProcess) (h : coordinator_invariant s) :
    ∃ s1, reset_export running o s = Outcome.returned () s1 ∧ coordinator_invariant s1 ∧
      (s1.m_state = s.m_state ∨ s1.m_state = State.STATE_IDLE) := by
  cases hr : running s.m_state
  · obtain ⟨⟨hc, hl, h1, h2⟩, hinit, hexp⟩ := h
    obtain ⟨b, s1, hinv, hflag, hc1, h11, h12, hst⟩ := invalidate_step_invariant o
      BackgroundSlicingProcessStep.bspsGCodeFinalize
      { s with m_export_path := "", m_print := s.m_print.state_mutex_lock }
      (by simpa [consistent] using hc) h1 h2 hinit
    refine ⟨{ s1 with m_print := s1.m_print.state_mutex_unlock }, ?_,
      ⟨⟨?_, rfl, h11, h12⟩, fun _ => all_steps_pending _ hflag, ?_⟩, hst⟩
    · simp [reset_export, hr, hinv]
    · simpa [consistent] using hc1
    · apply export_recorded_of_not_done
      show s1.m_step_state BackgroundSlicingProcessStep.bspsGCodeFinalize ≠ StepState.Done
      rw [hflag]; decide
  · exact ⟨s, by simp [reset_export, hr], h, Or.inl rfl⟩

theorem reset_preserves_coordinator_invariant (running : State → Bool)
    (o : Oracle) (s : BackgroundSlicingProcess) (h : coordinator_invariant s) :
    ∃ s1, (Call.reset o).perform running s = some s1 ∧ coordinator_invariant s1 := by
  obtain ⟨b, s1, hstop, hinv1, hst1⟩ := stop_preserves_coordinator_invariant o s h
  obtain ⟨s2, hre, ⟨⟨hc2, hl2, h21, h22⟩, hinit2, hexp2⟩, hst2⟩ :=
    reset_export_preserves_coordinator_invariant running o s1 hinv1
  have hst2' : s2.m_state = State.STATE_INITIAL ∨ s2.m_state = State.STATE_IDLE := by
    rcases hst2 with h0 | h0
    · rw [h0]; exact hst1
    · exact Or.inr h0
  have hq : ({ s2 with m_print := s2.m_print.clear } : BackgroundSlicingProcess).m_state
        = State.STATE_IDLE ∨
      ({ s2 with m_print := s2.m_print.clear } : BackgroundSlicingProcess).m_step_state
        BackgroundSlicingProcessStep.bspsGCodeFinalize = StepState.Pending := by
    rcases hst2' with h0 | h0
    · exact Or.inr (hinit2 h0 _)
    · exact Or.inl h0
  obtain ⟨c, f, hinv, hf⟩ := invalidate_step_quiet o
    BackgroundSlicingProcessStep.bspsGCodeFinalize
    { s2 with m_print := s2.m_print.clear } hq
  refine ⟨{ s2 with m_print := s2.m_print.clear, m_step_state := f }, ?_,
    ⟨?_, hl2, h21, h22⟩, fun _ => all_steps_pending _ hf, ?_⟩
  · simp [Call.perform, reset, hstop, hre, Outcome.andThen, invalidate_all_steps, all_steps,
      hinv, Outcome.final]
  · simpa [consistent] using hc2
  · apply export_recorded_of_not_done
    show f BackgroundSlicingProcessStep.bspsGCodeFinalize ≠ StepState.Done
    rw [hf]; decide

theorem perform_preserves_coordinator_invariant (running : State → Bool) (c : Call)
    (s : BackgroundSlicingProcess) (h : coordinator_invariant s) :
    ∃ s1, c.perform running s = some s1 ∧ coordinator_invariant s1 := by
  cases c with
  | start o => exact start_preserves_coordinator_invariant running o s h
  | stop o =>
    obtain ⟨b, s1, hstop, hinv, -⟩ := stop_preserves_coordinator_invariant o s h
    exact ⟨s1, by simp [Call.perform, hstop, Outcome.final], hinv⟩
  | reset o => exact reset_preserves_coordinator_invariant running o s h
  | schedule_export o path =>
    exact schedule_export_preserves_coordinator_invariant running o path s h
  | reset_export o =>
    obtain ⟨s1, hre, hinv, -⟩ := reset_export_preserves_coordinator_invariant running o s h
    exact ⟨s1, by simp [Call.perform, hre, Outcome.final], hinv⟩
  | worker o => exact worker_preserves_coordinator_invariant running o s h

theorem perform_calls_preserves_coordinator_invariant (running : State → Bool)
    (calls : List Call) :
    ∀ s : BackgroundSlicingProcess, coordinator_invariant s →
      ∃ s1, perform_calls running calls s = some s1 ∧ coordinator_invariant s1 := by
  induction calls with
  | nil => intro s h; exact ⟨s, rfl, h⟩
  | cons c rest ih =>
    intro s h
    obtain ⟨s1, h1, hinv1⟩ := perform_preserves_coordinator_invariant running c s h
    obtain ⟨s2, h2, hinv2⟩ := ih s1 hinv1
    exact ⟨s2, by simp [perform_calls, h1, h2], hinv2⟩

theorem constructed_coordinator_invariant (p : PrintBase)
    (hp : p.m_state_mutex_locked = false) : coordinator_invariant (constructed p) :=
  ⟨constructed_invariant p hp, fun _ _ => rfl, fun h => absurd rfl h⟩

/-- The processing of a run in which nothing fails, with an export target set and
the finalize step not yet Done: the step ends Done, the target is kept. -/
theorem try_process_succeeds (o : Oracle) (s : BackgroundSlicingProcess)
    (ho : o.succeeds) (htech : s.m_print.technology ≠ PrinterTechnology.ptOther)
    (hcan : s.m_print.canceled = false) (hpath : s.m_export_path ≠ "")
    (hflag : s.m_step_state BackgroundSlicingProcessStep.bspsGCodeFinalize ≠ StepState.Done) :
    ∃ s1, try_process o s = some ("", s1) ∧
      s1.m_step_state BackgroundSlicingProcessStep.bspsGCodeFinalize = StepState.Done ∧
      s1.m_export_path = s.m_export_path ∧ s1.m_print.canceled = false := by
  obtain ⟨h1, h2, h3, h4, h5⟩ := ho
  have hcan2 : s.m_print.m_cancel_status = CancelStatus.NOT_CANCELED := by
    simpa [PrintBase.canceled] using hcan
  obtain ⟨e, s1, htry, hf⟩ := try_process_frame o s
  have hkey : e = "" ∧
      s1.m_step_state BackgroundSlicingProcessStep.bspsGCodeFinalize = StepState.Done := by
    cases ht : s.m_print.technology
    · simp [try_process, process_by_technology, ht, process_fff, h1, h2, h3, h4,
        set_step_started, set_step_done, throw_if_canceled, Outcome.andThen, wxQueueEvent,
        PrintBase.canceled, hcan2, hflag, hpath, set_status, PrintBase.set_status,
        caught_error] at htry
      obtain ⟨he, hs⟩ := htry
      subst hs
      exact ⟨he.symm, by simp [set_flag]⟩
    · simp [try_process, process_by_technology, ht, process_sla, h1, h5,
        set_step_started, set_step_done, throw_if_canceled, Outcome.andThen,
        PrintBase.canceled, hcan2, hflag, hpath, set_status, PrintBase.set_status,
        caught_error] at htry
      obtain ⟨he, hs⟩ := htry
      subst hs
      exact ⟨he.symm, by simp [set_flag]⟩
    · exact absurd ht htech
  obtain ⟨he, hdone⟩ := hkey
  subst he
  refine ⟨s1, htry, hdone, hf.2.1, ?_⟩
  simp [PrintBase.canceled, hf.2.2.2.2.1, hcan2]


/-- C1, as the claim states it, fails: after a `start()` on an empty job, which
spawns no worker thread, `stop()` returns false and leaves the state Initial,
not Idle. -/
theorem stop_first_call_leaves_initial :
    perform_all running_active [Action.start oracle_ok]
        (constructed (fresh_print true PrinterTechnology.ptFFF))
        = some (constructed (fresh_print true PrinterTechnology.ptFFF)) ∧
      stop oracle_ok (constructed (fresh_print true PrinterTechnology.ptFFF))
        = Outcome.returned false (constructed (fresh_print true PrinterTechnology.ptFFF)) ∧
      (constructed (fresh_print true PrinterTechnology.ptFFF)).m_state
        = State.STATE_INITIAL ∧
      (constructed (fresh_print true PrinterTechnology.ptFFF)).m_state
        ≠ State.STATE_IDLE :=
  ⟨rfl, rfl, rfl, by decide⟩

/-- C1, amended: after any history of `start()` and `stop()` calls and worker
sections on a newly constructed coordinator, a call of `stop()` returns, and the
state it leaves is Initial when the state before the call was Initial (no worker
thread yet) and Idle otherwise; it is never Started, Running, Finished or
Canceled. -/
theorem stop_leaves_idle_or_initial (running : State → Bool) (p : PrintBase)
    (hp : p.m_state_mutex_locked = false) (acts : List Action) (o : Oracle) :
    ∃ s b s1, perform_all running acts (constructed p) = some s ∧
      stop o s = Outcome.returned b s1 ∧
      (s.m_state = State.STATE_INITIAL → s1.m_state = State.STATE_INITIAL) ∧
      (s.m_state ≠ State.STATE_INITIAL → s1.m_state = State.STATE_IDLE) ∧
      s1.m_state ≠ State.STATE_STARTED ∧ s1.m_state ≠ State.STATE_RUNNING ∧
      s1.m_state ≠ State.STATE_FINISHED ∧ s1.m_state ≠ State.STATE_CANCELED := by
  obtain ⟨s, hs, hc, hl, h1, h2⟩ :=
    perform_all_preserves_invariant running acts (constructed p) (constructed_invariant p hp)
  obtain ⟨b, s1, hstop, -, hsame, hidle, -, -, -, -⟩ := stop_returns o s hc hl
  have hcases : s.m_state = State.STATE_INITIAL ∨ s.m_state = State.STATE_IDLE ∨
      (s.m_state = State.STATE_STARTED ∨ s.m_state = State.STATE_RUNNING ∨
      s.m_state = State.STATE_FINISHED ∨ s.m_state = State.STATE_CANCELED) := by
    cases hs0 : s.m_state <;> simp_all
  have key : (s.m_state = State.STATE_INITIAL ∧ s1.m_state = State.STATE_INITIAL) ∨
      (s.m_state ≠ State.STATE_INITIAL ∧ s1.m_state = State.STATE_IDLE) := by
    rcases hcases with h0 | h0 | h0
    · left; exact ⟨h0, by rw [hsame (Or.inl h0)]; exact h0⟩
    · right; exact ⟨by simp [h0], by rw [hsame (Or.inr (Or.inl h0))]; exact h0⟩
    · right; exact ⟨by rcases h0 with h | h | h | h <;> simp [h], hidle h0⟩
  refine ⟨s, b, s1, hs, hstop, ?_, ?_, ?_, ?_, ?_, ?_⟩ <;>
    rcases key with ⟨ha, hb⟩ | ⟨ha, hb⟩ <;> simp_all

/-- Witness of `stop_leaves_idle_or_initial`: a history in which a run is started,
the worker begins it, and the run is stopped and started again. -/
theorem stop_leaves_idle_or_initial_witness :
    (fresh_print false PrinterTechnology.ptFFF).m_state_mutex_locked = false ∧
    ∃ s b s1, perform_all running_active
        [Action.start oracle_ok, Action.worker oracle_ok, Action.worker oracle_ok,
          Action.stop oracle_ok, Action.start oracle_ok]
        (constructed (fresh_print false PrinterTechnology.ptFFF)) = some s ∧
      stop oracle_ok s = Outcome.returned b s1 ∧
      (s.m_state = State.STATE_INITIAL → s1.m_state = State.STATE_INITIAL) ∧
      (s.m_state ≠ State.STATE_INITIAL → s1.m_state = State.STATE_IDLE) ∧
      s1.m_state ≠ State.STATE_STARTED ∧ s1.m_state ≠ State.STATE_RUNNING ∧
      s1.m_state ≠ State.STATE_FINISHED ∧ s1.m_state ≠ State.STATE_CANCELED :=
  ⟨rfl, stop_leaves_idle_or_initial running_active (fresh_print false PrinterTechnology.ptFFF)
    rfl _ oracle_ok⟩

/-- C2: on an empty job `start()` returns false and changes nothing: the state,
the worker thread, the cancel callback of the job and the export target are as
before the call. -/
theorem start_empty_job_returns_false (running : State → Bool) (o : Oracle)
    (s : BackgroundSlicingProcess) (h : s.m_print.empty = true) :
    start running o s = Outcome.returned false s := by
  simp [start, h]

/-- Witness of `start_empty_job_returns_false`: a newly constructed coordinator
with an empty job. -/
theorem start_empty_job_returns_false_witness :
    (constructed (fresh_print true PrinterTechnology.ptFFF)).m_print.empty = true ∧
    start running_active oracle_ok (constructed (fresh_print true PrinterTechnology.ptFFF))
      = Outcome.returned false (constructed (fresh_print true PrinterTechnology.ptFFF)) :=
  ⟨rfl, start_empty_job_returns_false running_active oracle_ok _ rfl⟩



/-- C3: after a `start()` that returned true (so on a non-empty job), as long as
only the worker has moved and the state is still Started or Running, a second
`start()` returns false and changes nothing; the job is still non-empty and the
cancel callback installed by the first call is still in place. The helper
`running()` of the header is taken to hold in the states Started and Running. -/
theorem second_start_returns_false (running : State → Bool)
    (hS : running State.STATE_STARTED = true) (hR : running State.STATE_RUNNING = true)
    (o1 o2 : Oracle) (ws : List Oracle) (s s1 s2 : BackgroundSlicingProcess)
    (h1 : start running o1 s = Outcome.returned true s1)
    (hw : perform_all running (ws.map Action.worker) s1 = some s2)
    (hst : s2.m_state = State.STATE_STARTED ∨ s2.m_state = State.STATE_RUNNING) :
    s1.m_state = State.STATE_STARTED ∧ s2.m_print.empty = false ∧
      start running o2 s2 = Outcome.returned false s2 ∧
      s2.m_print.m_cancel_callback = CancelCallback.stop_internal := by
  obtain ⟨hs1, he1, hcb1⟩ := start_returned_true running o1 s s1 h1
  obtain ⟨he2, hcb2⟩ := worker_sections_job running ws s1 s2 hw
  have hempty : s2.m_print.empty = false := by
    simp only [PrintBase.empty]
    exact he2.trans he1
  refine ⟨hs1, hempty, ?_, hcb2.trans hcb1⟩
  have hni : s2.m_state ≠ State.STATE_INITIAL := by rcases hst with h | h <;> simp [h]
  have hrun : running s2.m_state = true := by rcases hst with h | h <;> simp [h, hS, hR]
  simp [start, start_thread_eq, hempty, hni, hrun]

/-- Witness of `second_start_returns_false`: the second call comes when the
worker has taken up the run (state Running). -/
theorem second_start_returns_false_witness :
    ∃ s1 s2, start running_active oracle_ok
        (constructed (fresh_print false PrinterTechnology.ptFFF)) = Outcome.returned true s1 ∧
      perform_all running_active ([oracle_ok, oracle_ok].map Action.worker) s1 = some s2 ∧
      s2.m_state = State.STATE_RUNNING ∧
      s1.m_state = State.STATE_STARTED ∧ s2.m_print.empty = false ∧
      start running_active oracle_ok s2 = Outcome.returned false s2 ∧
      s2.m_print.m_cancel_callback = CancelCallback.stop_internal :=
  ⟨_, _, rfl, rfl, rfl,
    second_start_returns_false running_active rfl rfl oracle_ok oracle_ok
      [oracle_ok, oracle_ok] (constructed (fresh_print false PrinterTechnology.ptFFF)) _ _
      rfl rfl (Or.inr rfl)⟩

/-- C4, as the claim states it for every path, fails: when the first path is the
empty string the target is still empty after the first call, so the second
call is accepted and records its path. -/
theorem schedule_export_after_empty_path :
    ∃ s1 s2,
      schedule_export oracle_ok "" (constructed (fresh_print false PrinterTechnology.ptFFF))
        = Outcome.returned () s1 ∧
      schedule_export oracle_ok "b.gcode" s1 = Outcome.returned () s2 ∧
      s2.m_export_path = "b.gcode" ∧ s2.m_export_path ≠ "" :=
  ⟨_, _, rfl, rfl, rfl, by decide⟩

/-- C4, amended: for every non-empty path `p1` and every path `p2`, on a
coordinator without export target `schedule_export(p1)` records `p1`, and an
immediately following `schedule_export(p2)` returns without changing anything:
the target is still `p1` and the flag of the finalize step is as the first call
left it. -/
theorem schedule_export_twice_keeps_first (o1 o2 : Oracle) (p1 p2 : String)
    (s : BackgroundSlicingProcess) (hc : consistent s = true)
    (hempty : s.m_export_path = "") (hp1 : p1 ≠ "") :
    ∃ s1, schedule_export o1 p1 s = Outcome.returned () s1 ∧ s1.m_export_path = p1 ∧
      schedule_export o2 p2 s1 = Outcome.returned () s1 := by
  obtain ⟨b, s1, hinv, -, -⟩ := invalidate_step_returns o1
    BackgroundSlicingProcessStep.bspsGCodeFinalize
    { s with m_print := s.m_print.state_mutex_lock } (by simpa [consistent] using hc)
  refine ⟨{ s1 with m_export_path := p1, m_print := s1.m_print.state_mutex_unlock }, ?_,
    rfl, ?_⟩
  · simp only [hempty] at hinv
    simp [schedule_export, hempty, hinv]
  · simp [schedule_export, hp1]

/-- Witness of `schedule_export_twice_keeps_first`: two exports scheduled while
the worker processes a run whose finalize step is started. -/
theorem schedule_export_twice_keeps_first_witness :
    ∃ s1, schedule_export oracle_ok "a.gcode"
        (sample_state State.STATE_RUNNING WorkerPc.processing false StepState.Started)
        = Outcome.returned () s1 ∧ s1.m_export_path = "a.gcode" ∧
      schedule_export oracle_ok "b.gcode" s1 = Outcome.returned () s1 :=
  schedule_export_twice_keeps_first oracle_ok oracle_ok "a.gcode" "b.gcode"
    (sample_state State.STATE_RUNNING WorkerPc.processing false StepState.Started)
    rfl rfl (by decide)

/-- C5: in each of the states Initial, Idle, Started, Running, Finished and
Canceled, with any export target and any step flags, `reset()` returns the
value that its call of `stop()` returns, and afterwards the export target is
empty and `is_step_done` is false for every step. The helper `running()` of the
header is taken to be false in the states Initial and Idle, the two states that
`stop()` leaves. -/
theorem reset_clears_export_and_steps (running : State → Bool)
    (hI : running State.STATE_INITIAL = false) (hIdle : running State.STATE_IDLE = false)
    (o : Oracle) (s : BackgroundSlicingProcess)
    (hc : consistent s = true) (hl : s.m_print.m_state_mutex_locked = false)
    (hst : s.m_state ≠ State.STATE_EXIT ∧ s.m_state ≠ State.STATE_EXITED) :
    ∃ b s1 s2, stop o s = Outcome.returned b s1 ∧
      reset running o s = Outcome.returned b s2 ∧ s2.m_export_path = "" ∧
      ∀ step, is_step_done step s2 = false := by
  obtain ⟨b, s1, hstop, -, hsame, hidle, hc1, -, -, -⟩ := stop_returns o s hc hl
  have hs1 : s1.m_state = State.STATE_INITIAL ∨ s1.m_state = State.STATE_IDLE := by
    have hcases : s.m_state = State.STATE_INITIAL ∨ s.m_state = State.STATE_IDLE ∨
        (s.m_state = State.STATE_STARTED ∨ s.m_state = State.STATE_RUNNING ∨
        s.m_state = State.STATE_FINISHED ∨ s.m_state = State.STATE_CANCELED) := by
      obtain ⟨h1, h2⟩ := hst
      cases hs0 : s.m_state <;> simp_all
    rcases hcases with h0 | h0 | h0
    · left; rw [hsame (Or.inl h0)]; exact h0
    · right; rw [hsame (Or.inr (Or.inl h0))]; exact h0
    · right; exact hidle h0
  have hrun : running s1.m_state = false := by rcases hs1 with h | h <;> simp [h, hI, hIdle]
  obtain ⟨c, s2, hinv, hflag, hpath⟩ := invalidate_step_returns o
    BackgroundSlicingProcessStep.bspsGCodeFinalize
    { s1 with m_export_path := "", m_print := s1.m_print.state_mutex_lock }
    (by simpa [consistent] using hc1)
  refine ⟨b, s1, { s2 with m_print := s2.m_print.state_mutex_unlock.clear }, hstop, ?_,
    hpath, ?_⟩
  · have hpend : ({ s2 with m_print := s2.m_print.state_mutex_unlock.clear } :
        BackgroundSlicingProcess).m_step_state
        BackgroundSlicingProcessStep.bspsGCodeFinalize = StepState.Pending := hflag
    simp only [reset, hstop, Outcome.andThen, reset_export, hrun, Bool.not_false, if_true,
      hinv, invalidate_all_steps, all_steps, List.foldl,
      invalidate_step_of_pending o _ _ hpend, Bool.or_false]
  · intro step
    cases step
    simp [is_step_done, hflag]

/-- Witness of `reset_clears_export_and_steps`: a reset while the worker
processes a run with an export scheduled and the finalize step started. -/
theorem reset_clears_export_and_steps_witness :
    ∃ b s1 s2,
      stop oracle_ok
        { sample_state State.STATE_RUNNING WorkerPc.processing false StepState.Started with
          m_export_path := "a.gcode" } = Outcome.returned b s1 ∧
      reset running_until_stopped oracle_ok
        { sample_state State.STATE_RUNNING WorkerPc.processing false StepState.Started with
          m_export_path := "a.gcode" } = Outcome.returned b s2 ∧
      s2.m_export_path = "" ∧ ∀ step, is_step_done step s2 = false :=
  reset_clears_export_and_steps running_until_stopped rfl rfl oracle_ok
    { sample_state State.STATE_RUNNING WorkerPc.processing false StepState.Started with
      m_export_path := "a.gcode" } rfl rfl ⟨by decide, by decide⟩

/-- C6: the section of the worker that publishes the result of a run (lines 187
to 198) queues exactly one finished event when `cancel_status()` of the job is
not the internal one, whatever the error text, and no event at all when it is
the internal one, although it then sets the state to Canceled; in a whole turn
of the loop the only other events are the `slicing_completed` events of the
processing; while `stop_internal()` runs, no finished event is queued, by
`stop_internal()` or by the worker it waits for. -/
theorem finished_event_iff_not_internal (o : Oracle) :
    (∀ (error : String) (s : BackgroundSlicingProcess),
      (publish_result error s).m_events = s.m_events ++
        (if s.m_print.cancel_status = CancelStatus.CANCELED_INTERNAL then []
         else [Event.finished error (finished_code s.m_print.canceled error)]) ∧
      (s.m_print.cancel_status = CancelStatus.CANCELED_INTERNAL →
        (publish_result error s).m_state = State.STATE_CANCELED ∧
        (publish_result error s).m_events = s.m_events)) ∧
    (∀ s : BackgroundSlicingProcess, s.m_thread = WorkerPc.waiting →
      s.m_state = State.STATE_STARTED → s.m_print.m_state_mutex_locked = false →
      ∃ s1 s2 s3 error evs,
        thread_proc_step o s = some s1 ∧ thread_proc_step o s1 = some s2 ∧
        thread_proc_step o s2 = some s3 ∧
        (∀ ev ∈ evs, ev = Event.slicing_completed) ∧
        s3.m_events = s.m_events ++ evs ++
          (if s.m_print.cancel_status = CancelStatus.CANCELED_INTERNAL then []
           else [Event.finished error (finished_code s.m_print.canceled error)])) ∧
    (∀ s : BackgroundSlicingProcess, consistent s = true →
      ∃ s1 evs, stop_internal o s = Outcome.returned () s1 ∧
        s1.m_events = s.m_events ++ evs ∧ ∀ ev ∈ evs, ev = Event.slicing_completed) := by
  refine ⟨?_, ?_, ?_⟩
  · intro error s
    refine ⟨publish_result_events error s, ?_⟩
    intro h
    refine ⟨?_, ?_⟩
    · rw [publish_result_state]
      simp [PrintBase.canceled, PrintBase.cancel_status] at h ⊢
      simp [h]
    · rw [publish_result_events]
      simp [h]
  · intro s hw hst hl
    obtain ⟨s1, s2, s3, error, evs, h1, -, h2, -, h3, h4, hstatus, hevs, hall⟩ :=
      thread_proc_loop_body o s hw hst hl
    refine ⟨s1, s2, s3, error, evs, h1, h2, h3, hall, ?_⟩
    rw [h4, publish_result_events, hevs]
    simp only [PrintBase.cancel_status, PrintBase.canceled, hstatus]
  · intro s hc
    exact stop_internal_events o s hc

/-- Witness of `finished_event_iff_not_internal`: a turn of the loop for a run
requested by `start()`, and `stop_internal()` entered while the worker
processes a run. -/
theorem finished_event_iff_not_internal_witness :
    (∃ s1 s2 s3 error evs,
      thread_proc_step oracle_ok
        (sample_state State.STATE_STARTED WorkerPc.waiting false StepState.Pending)
        = some s1 ∧ thread_proc_step oracle_ok s1 = some s2 ∧
      thread_proc_step oracle_ok s2 = some s3 ∧
      (∀ ev ∈ evs, ev = Event.slicing_completed) ∧
      s3.m_events =
        (sample_state State.STATE_STARTED WorkerPc.waiting false StepState.Pending).m_events
          ++ evs ++
          (if (sample_state State.STATE_STARTED WorkerPc.waiting false
              StepState.Pending).m_print.cancel_status = CancelStatus.CANCELED_INTERNAL
            then []
            else [Event.finished error (finished_code
              (sample_state State.STATE_STARTED WorkerPc.waiting false
                StepState.Pending).m_print.canceled error)])) ∧
    (∃ s1 evs,
      stop_internal oracle_ok
        (sample_state State.STATE_RUNNING WorkerPc.processing true StepState.Pending)
        = Outcome.returned () s1 ∧
      s1.m_events =
        (sample_state State.STATE_RUNNING WorkerPc.processing true StepState.Pending).m_events
          ++ evs ∧
      ∀ ev ∈ evs, ev = Event.slicing_completed) :=
  ⟨(finished_event_iff_not_internal oracle_ok).2.1
      (sample_state State.STATE_STARTED WorkerPc.waiting false StepState.Pending) rfl rfl rfl,
    (finished_event_iff_not_internal oracle_ok).2.2
      (sample_state State.STATE_RUNNING WorkerPc.processing true StepState.Pending) rfl⟩

/-- C7: when the worker queues the finished event, its numeric code is -1 if the
job reports canceled, 1 if it is not canceled and the error text is empty, and
0 if it is not canceled and the error text is not empty; so the code 0 is never
given to a canceled run, whatever the error text, and the code 1 only to a run
that is not canceled and left no error text. -/
theorem finished_event_code (error : String) (s : BackgroundSlicingProcess)
    (h : s.m_print.cancel_status ≠ CancelStatus.CANCELED_INTERNAL) :
    ∃ code : Int,
      (publish_result error s).m_events = s.m_events ++ [Event.finished error code] ∧
      (s.m_print.canceled = true → code = -1) ∧
      (s.m_print.canceled = false → error = "" → code = 1) ∧
      (s.m_print.canceled = false → error ≠ "" → code = 0) ∧
      (code = 0 → s.m_print.canceled = false ∧ error ≠ "") ∧
      (code = 1 → s.m_print.canceled = false ∧ error = "") := by
  refine ⟨finished_code s.m_print.canceled error, ?_, ?_, ?_, ?_, ?_, ?_⟩
  · rw [publish_result_events, if_neg h]
  all_goals
    unfold finished_code
    cases s.m_print.canceled <;> by_cases he : error = "" <;> simp [he]

/-- Witness of `finished_event_code`: a run canceled by the user that also left
an error text is reported with the code -1. -/
theorem finished_event_code_witness :
    sample_canceled_state.m_print.cancel_status ≠ CancelStatus.CANCELED_INTERNAL ∧
    ∃ code : Int,
      (publish_result "Copying failed" sample_canceled_state).m_events
        = sample_canceled_state.m_events ++ [Event.finished "Copying failed" code] ∧
      (sample_canceled_state.m_print.canceled = true → code = -1) ∧
      (sample_canceled_state.m_print.canceled = false → "Copying failed" = "" → code = 1) ∧
      (sample_canceled_state.m_print.canceled = false → "Copying failed" ≠ "" → code = 0) ∧
      (code = 0 → sample_canceled_state.m_print.canceled = false ∧ "Copying failed" ≠ "") ∧
      (code = 1 → sample_canceled_state.m_print.canceled = false ∧ "Copying failed" = "") :=
  ⟨by decide, finished_event_code "Copying failed" sample_canceled_state (by decide)⟩

/-- C8, as the claim states it, fails: in the state Idle `stop()` returns true
although the call changes nothing. -/
theorem stop_in_idle_returns_true :
    stop oracle_ok (sample_state State.STATE_IDLE WorkerPc.waiting false StepState.Pending)
      = Outcome.returned true
        (sample_state State.STATE_IDLE WorkerPc.waiting false StepState.Pending) :=
  rfl

/-- C8, amended: `stop()` returns false exactly when the state is Initial, and
then it changes nothing; in every other state it returns true, so it returns
true whenever the call changed the state (and also in Idle, where it changes
nothing). -/
theorem stop_returns_false_iff_initial (o : Oracle) (s : BackgroundSlicingProcess)
    (hc : consistent s = true) (hl : s.m_print.m_state_mutex_locked = false) :
    ∃ b s1, stop o s = Outcome.returned b s1 ∧
      (b = false ↔ s.m_state = State.STATE_INITIAL) ∧
      (b = false → s1 = s) ∧
      (s1.m_state ≠ s.m_state → b = true) := by
  obtain ⟨b, s1, hstop, hiff, hsame, -, -, -, -, -⟩ := stop_returns o s hc hl
  refine ⟨b, s1, hstop, hiff, ?_, ?_⟩
  · intro hb
    exact hsame (Or.inl (hiff.mp hb))
  · intro hne
    cases b
    · exact absurd (by rw [hsame (Or.inl (hiff.mp rfl))]) hne
    · rfl

/-- Witness of `stop_returns_false_iff_initial`: `stop()` on a run that the
worker has not taken up yet. -/
theorem stop_returns_false_iff_initial_witness :
    ∃ b s1,
      stop oracle_ok
        (sample_state State.STATE_STARTED WorkerPc.waiting false StepState.Pending)
        = Outcome.returned b s1 ∧
      (b = false ↔ State.STATE_STARTED = State.STATE_INITIAL) ∧
      (b = false → s1 =
        sample_state State.STATE_STARTED WorkerPc.waiting false StepState.Pending) ∧
      (s1.m_state ≠ State.STATE_STARTED → b = true) :=
  stop_returns_false_iff_initial oracle_ok
    (sample_state State.STATE_STARTED WorkerPc.waiting false StepState.Pending) rfl rfl

/-- C9: on a non-empty job `start()` throws exactly when, once the worker thread
has been brought up, the state is not Idle and `running()` is false; it then
throws the runtime error of line 254 and leaves the coordinator as it was, no
cancel callback installed. When that state is Idle (and `running()` is false
there) it sets the state to Started, installs the callback that calls
`stop_internal` and returns true. -/
theorem start_throws_iff_not_idle_not_running (running : State → Bool) (o : Oracle)
    (s : BackgroundSlicingProcess) (hne : s.m_print.empty = false) :
    ((∃ ex s1, start running o s = Outcome.thrown ex s1) ↔
      (state_with_thread s ≠ State.STATE_IDLE ∧ running (state_with_thread s) = false)) ∧
    (state_with_thread s ≠ State.STATE_IDLE → running (state_with_thread s) = false →
      start running o s = Outcome.thrown (Thrown.std_exception
        "Cannot start a background task, the worker thread is not idle.") s) ∧
    (state_with_thread s = State.STATE_IDLE → running State.STATE_IDLE = false →
      ∃ s0 s1, start_thread o s = some s0 ∧ s0.m_state = State.STATE_IDLE ∧
        start running o s = Outcome.returned true s1 ∧
        s1 = { s0 with m_state := State.STATE_STARTED,
                       m_print := s0.m_print.set_cancel_callback CancelCallback.stop_internal } ∧
        s1.m_state = State.STATE_STARTED ∧
        s1.m_print.m_cancel_callback = CancelCallback.stop_internal) := by
  unfold state_with_thread
  by_cases hi : s.m_state = State.STATE_INITIAL
  · simp only [hi, if_true, ne_eq, not_true_eq_false, false_and, iff_false, not_exists,
      false_implies, true_and, forall_true_left]
    cases hr : running State.STATE_IDLE
    · simp [start, start_thread_eq, hne, hi, hr, idle, PrintBase.set_cancel_callback]
    · simp [start, start_thread_eq, hne, hi, hr]
  · simp only [hi, if_false]
    cases hr : running s.m_state
    · by_cases hidle : s.m_state = State.STATE_IDLE
      · have hr2 := hr
        rw [hidle] at hr2
        simp [start, start_thread_eq, hne, hi, hr2, idle, hidle, PrintBase.set_cancel_callback]
      · simp [start, start_thread_eq, hne, hi, hr, idle, hidle]
    · by_cases hidle : s.m_state = State.STATE_IDLE
      · have hr2 := hr
        rw [hidle] at hr2
        simp [start, start_thread_eq, hne, hi, hr2, hidle]
      · simp [start, start_thread_eq, hne, hi, hr, hidle]

/-- Witness of `start_throws_iff_not_idle_not_running`: `start()` called in the
state Exit, where a `running()` that holds from Started to Canceled is false. -/
theorem start_throws_iff_not_idle_not_running_witness :
    (sample_state State.STATE_EXIT WorkerPc.waiting false StepState.Pending).m_print.empty
      = false ∧
    start running_until_stopped oracle_ok
      (sample_state State.STATE_EXIT WorkerPc.waiting false StepState.Pending)
      = Outcome.thrown (Thrown.std_exception
        "Cannot start a background task, the worker thread is not idle.")
        (sample_state State.STATE_EXIT WorkerPc.waiting false StepState.Pending) :=
  ⟨rfl, (start_throws_iff_not_idle_not_running running_until_stopped oracle_ok
    (sample_state State.STATE_EXIT WorkerPc.waiting false StepState.Pending) rfl).2.1
    (by decide) rfl⟩

/-- C10: entered with the state lock of the job held, in any state in which the
worker stands where the state says (so in each of Idle, Started, Running,
Finished, Canceled), `stop_internal()` returns with the lock held and the state
Idle. Of the lock it makes exactly one unlock followed by one lock when the
state was Started or Running, and no call at all otherwise; it calls
`cancel_internal()` exactly when the state was Started or Running, and never
`cancel()`. -/
theorem stop_internal_keeps_state_lock (o : Oracle) (s : BackgroundSlicingProcess)
    (hc : consistent s = true) (hl : s.m_print.m_state_mutex_locked = true) :
    ∃ s1 calls, stop_internal o s = Outcome.returned () s1 ∧
      s1.m_print.m_state_mutex_locked = true ∧ s1.m_state = State.STATE_IDLE ∧
      s1.m_print.m_calls = s.m_print.m_calls ++ calls ∧
      calls.filter is_lock_call =
        (if s.m_state = State.STATE_STARTED ∨ s.m_state = State.STATE_RUNNING then
          [JobCall.state_mutex_unlock, JobCall.state_mutex_lock] else []) ∧
      (JobCall.cancel_internal ∈ calls ↔
        (s.m_state = State.STATE_STARTED ∨ s.m_state = State.STATE_RUNNING)) ∧
      JobCall.cancel ∉ calls := by
  by_cases hact : s.m_state = State.STATE_STARTED ∨ s.m_state = State.STATE_RUNNING
  · obtain ⟨e, s0, hf, hs⟩ := stop_internal_of_active o s hc hact
    obtain ⟨-, -, -, -, -, -, -, ⟨extra, hcalls, hextra⟩, -⟩ := hf
    obtain ⟨hx1, hx2, hx3⟩ := filter_lock_call_of_set_status extra hextra
    refine ⟨_, [JobCall.cancel_internal, JobCall.state_mutex_unlock] ++ extra ++
      [JobCall.restart, JobCall.state_mutex_lock,
        JobCall.set_cancel_callback CancelCallback.noop], hs, ?_, rfl, ?_, ?_, ?_, ?_⟩
    · simp [PrintBase.set_cancel_callback, PrintBase.state_mutex_lock]
    · simp only [publish_result_print, PrintBase.set_cancel_callback,
        PrintBase.state_mutex_lock, PrintBase.restart, hcalls]
      simp [PrintBase.cancel_internal, PrintBase.state_mutex_unlock]
    · simp [List.filter_append, hx1, hact, is_lock_call, List.filter]
    · simp [hact]
    · simp [hx2]
  · by_cases hidle : s.m_state = State.STATE_IDLE
    · exact ⟨s, [], stop_internal_of_idle o s hidle, hl, hidle, by simp, by simp [hact],
        by simp [hact], by simp⟩
    · have h2 : s.m_state ≠ State.STATE_STARTED := fun h => hact (Or.inl h)
      have h3 : s.m_state ≠ State.STATE_RUNNING := fun h => hact (Or.inr h)
      refine ⟨_, [JobCall.set_cancel_callback CancelCallback.noop],
        stop_internal_of_inactive o s hidle h2 h3, ?_, rfl, ?_, ?_, ?_, ?_⟩
      · simpa [PrintBase.set_cancel_callback] using hl
      · simp [PrintBase.set_cancel_callback]
      · simp [hact, is_lock_call, List.filter]
      · simp [hact]
      · simp

/-- Witness of `stop_internal_keeps_state_lock`: `stop_internal()` entered while
the worker processes a run. -/
theorem stop_internal_keeps_state_lock_witness :
    ∃ s1 calls,
      stop_internal oracle_ok
        (sample_state State.STATE_RUNNING WorkerPc.processing true StepState.Pending)
        = Outcome.returned () s1 ∧
      s1.m_print.m_state_mutex_locked = true ∧ s1.m_state = State.STATE_IDLE ∧
      s1.m_print.m_calls =
        (sample_state State.STATE_RUNNING WorkerPc.processing true
          StepState.Pending).m_print.m_calls ++ calls ∧
      calls.filter is_lock_call =
        (if (sample_state State.STATE_RUNNING WorkerPc.processing true
              StepState.Pending).m_state = State.STATE_STARTED ∨
            (sample_state State.STATE_RUNNING WorkerPc.processing true
              StepState.Pending).m_state = State.STATE_RUNNING then
          [JobCall.state_mutex_unlock, JobCall.state_mutex_lock] else []) ∧
      (JobCall.cancel_internal ∈ calls ↔
        ((sample_state State.STATE_RUNNING WorkerPc.processing true
            StepState.Pending).m_state = State.STATE_STARTED ∨
          (sample_state State.STATE_RUNNING WorkerPc.processing true
            StepState.Pending).m_state = State.STATE_RUNNING)) ∧
      JobCall.cancel ∉ calls :=
  stop_internal_keeps_state_lock oracle_ok
    (sample_state State.STATE_RUNNING WorkerPc.processing true StepState.Pending) rfl rfl

/-- C11, as the claim states it, fails: a run that completes normally with an
export target set marks the finalize step Done and leaves the export target as
it was, so the target is non-empty while the step is Done. -/
theorem export_target_kept_after_run :
    ∃ s, perform_calls running_active
        [Call.schedule_export oracle_ok "a.gcode", Call.start oracle_ok,
          Call.worker oracle_ok, Call.worker oracle_ok, Call.worker oracle_ok,
          Call.worker oracle_ok]
        (constructed (fresh_print false PrinterTechnology.ptFFF)) = some s ∧
      s.m_state = State.STATE_FINISHED ∧
      s.m_events = [Event.slicing_completed, Event.finished "" 1] ∧
      s.m_export_path = "a.gcode" ∧ s.m_export_path ≠ "" ∧
      s.m_step_state BackgroundSlicingProcessStep.bspsGCodeFinalize = StepState.Done ∧
      is_step_done BackgroundSlicingProcessStep.bspsGCodeFinalize s = true :=
  ⟨_, rfl, rfl, rfl, rfl, by decide, rfl, rfl⟩

/-- C11, amended: after any history of `start()`, `stop()`, `reset()`,
`schedule_export()`, `reset_export()` and worker sections on a newly constructed
coordinator, every call returns, and if the export target is non-empty then the
finalize step is not Done, or it is Done and a run has reported its export to
the status of the job (the message of line 90 with the finalized path, or the
message of line 145 with the target); and a run in which nothing fails, started
with an export target set and the finalize step not Done, ends in Finished with
the finalize step Done and the export target unchanged, hence still
non-empty. -/
theorem export_target_done_only_after_export (running : State → Bool) :
    (∀ (p : PrintBase), p.m_state_mutex_locked = false → ∀ calls : List Call,
      ∃ s, perform_calls running calls (constructed p) = some s ∧
        (s.m_export_path ≠ "" →
          is_step_done BackgroundSlicingProcessStep.bspsGCodeFinalize s = false ∨
          ∃ c ∈ s.m_print.m_calls, is_export_status s.m_export_path c)) ∧
    (∀ (o : Oracle) (s : BackgroundSlicingProcess), o.succeeds →
      s.m_thread = WorkerPc.waiting → s.m_state = State.STATE_STARTED →
      s.m_print.m_state_mutex_locked = false →
      s.m_print.technology ≠ PrinterTechnology.ptOther → s.m_print.canceled = false →
      s.m_export_path ≠ "" →
      is_step_done BackgroundSlicingProcessStep.bspsGCodeFinalize s = false →
      ∃ s1 s2 s3, thread_proc_step o s = some s1 ∧ thread_proc_step o s1 = some s2 ∧
        thread_proc_step o s2 = some s3 ∧ s3.m_state = State.STATE_FINISHED ∧
        is_step_done BackgroundSlicingProcessStep.bspsGCodeFinalize s3 = true ∧
        s3.m_export_path = s.m_export_path ∧ s3.m_export_path ≠ "") := by
  refine ⟨?_, ?_⟩
  · intro p hp calls
    obtain ⟨s, hs, -, -, hexp⟩ := perform_calls_preserves_coordinator_invariant running calls
      (constructed p) (constructed_coordinator_invariant p hp)
    refine ⟨s, hs, ?_⟩
    intro hpath
    by_cases hd : s.m_step_state BackgroundSlicingProcessStep.bspsGCodeFinalize
        = StepState.Done
    · exact Or.inr (hexp hpath hd)
    · left
      simp [is_step_done, hd]
  · intro o s ho hth hst hl htech hcan hpath hflag
    have hflag2 : s.m_step_state BackgroundSlicingProcessStep.bspsGCodeFinalize
        ≠ StepState.Done := by
      simpa [is_step_done] using hflag
    obtain ⟨s1, htry, hdone, hp1, hcan1⟩ := try_process_succeeds o
      { s with m_state := State.STATE_RUNNING, m_thread := WorkerPc.processing }
      ho htech hcan hpath hflag2
    refine ⟨_, _, _, thread_proc_step_waiting_started o s hth hst,
      thread_proc_step_processing o _ s1 "" rfl hl htry,
      thread_proc_step_processed o _ "" rfl, ?_, ?_, ?_, ?_⟩
    · rw [publish_result_state]
      simp only [hcan1]
      rfl
    · simp [is_step_done, publish_result_step_state, hdone]
    · rw [publish_result_export_path]
      exact hp1
    · rw [publish_result_export_path]
      show s1.m_export_path ≠ ""
      rw [hp1]
      exact hpath

/-- Witness of `export_target_done_only_after_export`: the history in which an
export is scheduled and a run completes, and the run itself. -/
theorem export_target_done_only_after_export_witness :
    (∃ s, perform_calls running_active
        [Call.schedule_export oracle_ok "a.gcode", Call.start oracle_ok,
          Call.worker oracle_ok, Call.worker oracle_ok, Call.worker oracle_ok,
          Call.worker oracle_ok]
        (constructed (fresh_print false PrinterTechnology.ptFFF)) = some s ∧
      (s.m_export_path ≠ "" →
        is_step_done BackgroundSlicingProcessStep.bspsGCodeFinalize s = false ∨
        ∃ c ∈ s.m_print.m_calls, is_export_status s.m_export_path c)) ∧
    (∃ s1 s2 s3, thread_proc_step oracle_ok sample_export_state = some s1 ∧
      thread_proc_step oracle_ok s1 = some s2 ∧ thread_proc_step oracle_ok s2 = some s3 ∧
      s3.m_state = State.STATE_FINISHED ∧
      is_step_done BackgroundSlicingProcessStep.bspsGCodeFinalize s3 = true ∧
      s3.m_export_path = sample_export_state.m_export_path ∧ s3.m_export_path ≠ "") :=
  ⟨(export_target_done_only_after_export running_active).1
      (fresh_print false PrinterTechnology.ptFFF) rfl _,
    (export_target_done_only_after_export running_active).2 oracle_ok sample_export_state
      ⟨rfl, rfl, rfl, rfl, rfl⟩ rfl rfl rfl (by decide) rfl (by decide) rfl⟩

/-- C12: in each of the states Initial, Idle, Started, Running, Finished and
Canceled the destructor returns. Its call of `stop()` leaves the state Initial
or Idle, so the assertions of `join_background_thread()` hold when it is
entered; `join_background_thread()` then does nothing in the state Initial
(there is no thread), and otherwise tells the worker to exit and joins it, the
state ending as Exited. A run that was requested or under way has been canceled
by then: `cancel()` was called and the worker reported the run with the
code -1. -/
theorem destructor_joins_idle_thread (o : Oracle) (s : BackgroundSlicingProcess)
    (hc : consistent s = true) (hl : s.m_print.m_state_mutex_locked = false)
    (hst : s.m_state ≠ State.STATE_EXIT ∧ s.m_state ≠ State.STATE_EXITED) :
    ∃ b s1 s2, stop o s = Outcome.returned b s1 ∧
      join_background_thread o s1 = Outcome.returned () s2 ∧
      destructor o s = Outcome.returned () s2 ∧
      (s1.m_state = State.STATE_INITIAL ∨ s1.m_state = State.STATE_IDLE) ∧
      join_background_thread_assertions s1 = true ∧
      (s1.m_state = State.STATE_INITIAL → s2 = s1 ∧ s2.m_thread = WorkerPc.not_started) ∧
      (s1.m_state = State.STATE_IDLE →
        s2.m_state = State.STATE_EXITED ∧ s2.m_thread = WorkerPc.joined) ∧
      (s.m_state = State.STATE_STARTED ∨ s.m_state = State.STATE_RUNNING →
        s1.m_state = State.STATE_IDLE ∧ JobCall.cancel ∈ s1.m_print.m_calls ∧
        ∃ error, Event.finished error (-1) ∈ s1.m_events) := by
  obtain ⟨b, s1, hstop, -, hsame, hidle, hc1, -, -, -⟩ := stop_returns o s hc hl
  have hs1 : s1.m_state = State.STATE_INITIAL ∨ s1.m_state = State.STATE_IDLE := by
    have hcases : s.m_state = State.STATE_INITIAL ∨ s.m_state = State.STATE_IDLE ∨
        (s.m_state = State.STATE_STARTED ∨ s.m_state = State.STATE_RUNNING ∨
        s.m_state = State.STATE_FINISHED ∨ s.m_state = State.STATE_CANCELED) := by
      obtain ⟨h1, h2⟩ := hst
      cases hs0 : s.m_state <;> simp_all
    rcases hcases with h0 | h0 | h0
    · left; rw [hsame (Or.inl h0)]; exact h0
    · right; rw [hsame (Or.inr (Or.inl h0))]; exact h0
    · right; exact hidle h0
  have hactive : s.m_state = State.STATE_STARTED ∨ s.m_state = State.STATE_RUNNING →
      s1.m_state = State.STATE_IDLE ∧ JobCall.cancel ∈ s1.m_print.m_calls ∧
      ∃ error, Event.finished error (-1) ∈ s1.m_events := by
    intro hact
    obtain ⟨e, s0, hf, hs⟩ := stop_of_active o s hc hl hact
    rw [hs] at hstop
    simp only [Outcome.returned.injEq] at hstop
    obtain ⟨-, rfl⟩ := hstop
    obtain ⟨-, -, -, -, hstatus, -, -, ⟨extra, hcalls, -⟩, -⟩ := hf
    have hcan : s0.m_print.canceled = true := by
      simp [PrintBase.canceled, hstatus, PrintBase.cancel]
    have hni : s0.m_print.cancel_status ≠ CancelStatus.CANCELED_INTERNAL := by
      simp [PrintBase.cancel_status, hstatus, PrintBase.cancel]
    refine ⟨rfl, ?_, e, ?_⟩
    · simp [publish_result_print, PrintBase.set_cancel_callback, PrintBase.restart, hcalls,
        PrintBase.cancel]
    · simp [publish_result_events, hni, hcan, finished_code]
  rcases hs1 with h0 | h0
  · have hth : s1.m_thread = WorkerPc.not_started := by
      obtain ⟨st, pr, path, steps, th, evs⟩ := s1
      simp only at h0
      subst h0
      cases th <;> simp [consistent] at hc1 ⊢
    refine ⟨b, s1, s1, hstop, by simp [join_background_thread, h0],
      by simp [destructor, hstop, Outcome.andThen, join_background_thread, h0],
      Or.inl h0, by simp [join_background_thread_assertions, joinable, h0, hth],
      fun _ => ⟨rfl, hth⟩, fun h => by simp [h0] at h, hactive⟩
  · have hjoin := join_background_thread_of_idle o s1 hc1 h0
    have hth : joinable s1 = true := by
      obtain ⟨st, pr, path, steps, th, evs⟩ := s1
      simp only at h0
      subst h0
      cases th <;> simp [consistent] at hc1 ⊢ <;> simp [joinable]
    refine ⟨b, s1, _, hstop, hjoin,
      by simp [destructor, hstop, Outcome.andThen, hjoin],
      Or.inr h0, by simp [join_background_thread_assertions, h0, hth],
      fun h => by simp [h0] at h, fun _ => ⟨rfl, rfl⟩, hactive⟩

/-- Witness of `destructor_joins_idle_thread`: destruction while the worker
processes a run. -/
theorem destructor_joins_idle_thread_witness :
    ∃ b s1 s2,
      stop oracle_ok
        (sample_state State.STATE_RUNNING WorkerPc.processing false StepState.Pending)
        = Outcome.returned b s1 ∧
      join_background_thread oracle_ok s1 = Outcome.returned () s2 ∧
      destructor oracle_ok
        (sample_state State.STATE_RUNNING WorkerPc.processing false StepState.Pending)
        = Outcome.returned () s2 ∧
      (s1.m_state = State.STATE_INITIAL ∨ s1.m_state = State.STATE_IDLE) ∧
      join_background_thread_assertions s1 = true ∧
      (s1.m_state = State.STATE_INITIAL → s2 = s1 ∧ s2.m_thread = WorkerPc.not_started) ∧
      (s1.m_state = State.STATE_IDLE →
        s2.m_state = State.STATE_EXITED ∧ s2.m_thread = WorkerPc.joined) ∧
      ((sample_state State.STATE_RUNNING WorkerPc.processing false
            StepState.Pending).m_state = State.STATE_STARTED ∨
          (sample_state State.STATE_RUNNING WorkerPc.processing false
            StepState.Pending).m_state = State.STATE_RUNNING →
        s1.m_state = State.STATE_IDLE ∧ JobCall.cancel ∈ s1.m_print.m_calls ∧
        ∃ error, Event.finished error (-1) ∈ s1.m_events) :=
  destructor_joins_idle_thread oracle_ok
    (sample_state State.STATE_RUNNING WorkerPc.processing false StepState.Pending)
    rfl rfl ⟨by decide, by decide⟩

/-- C13: the worker, having processed a run in the state Running, sets the state
to Canceled exactly when the job reports canceled at that point, and to Finished
otherwise. The error text it holds then is the message of a `std::exception`
raised by the processing, the text "Unknown C++ exception." for any other
exception, and empty for a caught cancellation signal; so a run that raised a
failure ends in Finished unless the job is also canceled. -/
theorem run_ends_canceled_iff_job_canceled (o : Oracle) (s : BackgroundSlicingProcess)
    (hst : s.m_state = State.STATE_RUNNING) (hth : s.m_thread = WorkerPc.processing)
    (hl : s.m_print.m_state_mutex_locked = false) :
    ∃ error s1 s2,
      thread_proc_step o s = some s1 ∧ s1.m_thread = WorkerPc.processed error ∧
      s1.m_state = State.STATE_RUNNING ∧
      thread_proc_step o s1 = some s2 ∧
      (s2.m_state = State.STATE_CANCELED ↔ s1.m_print.canceled = true) ∧
      (s2.m_state = State.STATE_FINISHED ↔ s1.m_print.canceled = false) ∧
      s1.m_print.canceled = s.m_print.canceled ∧
      (∀ what r, process_by_technology o s = Outcome.thrown (Thrown.std_exception what) r →
        error = what ∧ (s.m_print.canceled = false → s2.m_state = State.STATE_FINISHED)) ∧
      (∀ r, process_by_technology o s = Outcome.thrown Thrown.unknown r →
        error = "Unknown C++ exception." ∧
        (s.m_print.canceled = false → s2.m_state = State.STATE_FINISHED)) ∧
      (∀ r, process_by_technology o s = Outcome.thrown Thrown.CanceledException r →
        error = "") := by
  obtain ⟨e, s1, htry, hf⟩ := try_process_frame o s
  have hcan : s1.m_print.canceled = s.m_print.canceled := by
    simp [PrintBase.canceled, hf.2.2.2.2.1]
  have hstate : ∀ c : Bool,
      ((if c = true then State.STATE_CANCELED else State.STATE_FINISHED)
        = State.STATE_CANCELED ↔ c = true) ∧
      ((if c = true then State.STATE_CANCELED else State.STATE_FINISHED)
        = State.STATE_FINISHED ↔ c = false) := by
    intro c; cases c <;> simp
  refine ⟨e, { s1 with m_thread := WorkerPc.processed e }, _,
    thread_proc_step_processing o s s1 e hth hl htry, rfl, hf.1.trans hst,
    thread_proc_step_processed o _ e rfl, ?_, ?_, hcan, ?_, ?_, ?_⟩
  · rw [publish_result_state]
    exact (hstate _).1
  · rw [publish_result_state]
    exact (hstate _).2
  · intro what r hr
    simp only [try_process, hr, caught_error, Option.some.injEq, Prod.mk.injEq] at htry
    refine ⟨htry.1.symm, ?_⟩
    intro hnc
    rw [publish_result_state]
    simp only [hcan, hnc]
    rfl
  · intro r hr
    simp only [try_process, hr, caught_error, Option.some.injEq, Prod.mk.injEq] at htry
    refine ⟨htry.1.symm, ?_⟩
    intro hnc
    rw [publish_result_state]
    simp only [hcan, hnc]
    rfl
  · intro r hr
    simp only [try_process, hr, caught_error, Option.some.injEq, Prod.mk.injEq] at htry
    exact htry.1.symm

/-- Witness of `run_ends_canceled_iff_job_canceled`: a run that is not canceled
and whose processing raises a failure ends in Finished, with the message of the
failure as error text. -/
theorem run_ends_canceled_iff_job_canceled_witness :
    ∃ error s1 s2,
      thread_proc_step oracle_failing
        (sample_state State.STATE_RUNNING WorkerPc.processing false StepState.Pending)
        = some s1 ∧
      thread_proc_step oracle_failing s1 = some s2 ∧
      error = "Out of memory" ∧ s1.m_thread = WorkerPc.processed error ∧
      s2.m_state = State.STATE_FINISHED := by
  obtain ⟨error, s1, s2, h1, hpc, -, h2, -, -, -, h3, -, -⟩ :=
    run_ends_canceled_iff_job_canceled oracle_failing
      (sample_state State.STATE_RUNNING WorkerPc.processing false StepState.Pending)
      rfl rfl rfl
  obtain ⟨he, hfin⟩ := h3 "Out of memory"
    (sample_state State.STATE_RUNNING WorkerPc.processing false StepState.Pending) rfl
  exact ⟨error, s1, s2, h1, h2, he, hpc, hfin rfl⟩

/-- C14 fails on the code: after the first `start()` the state is Started while
the worker stands at the head of its loop, having released `m_mutex` (line 158)
and not yet locked it again (line 163), so the assertion of line 161 is false
there; the same configuration is reached when `stop()` and then `start()` run
while the worker is back at the head of the loop after a canceled run. -/
theorem loop_head_assertion_fails_after_start :
    (∃ s, perform_all running_active [Action.start oracle_ok]
        (constructed (fresh_print false PrinterTechnology.ptFFF)) = some s ∧
      s.m_thread = WorkerPc.loop_head ∧ s.m_state = State.STATE_STARTED ∧
      loop_head_assertion s = false) ∧
    (∃ s, perform_all running_active
        [Action.start oracle_ok, Action.worker oracle_ok, Action.worker oracle_ok,
          Action.stop oracle_ok, Action.start oracle_ok]
        (constructed (fresh_print false PrinterTechnology.ptFFF)) = some s ∧
      s.m_thread = WorkerPc.loop_head ∧ s.m_state = State.STATE_STARTED ∧
      loop_head_assertion s = false) :=
  ⟨⟨_, rfl, rfl, rfl, rfl⟩, ⟨_, rfl, rfl, rfl, rfl⟩⟩

end Slic3r
